import Mathlib

/-! terraform-plugin-helper: schema and model emitters.

A shallow embedding of `schema.go`, `models.go` and the checks of `testing.go`.

* Go strings are Lean strings; a `*strings.Builder` is the text written so far,
  passed in and returned.
* A `reflect.Type` is a value of `GoType`; `Name`, `Kind`, `String`, `Elem` and the
  struct fields are computed from it the way package `reflect` reports them.
* A struct field carries the value `Tag.Get("terraform")` returns for it.
* `strconv.IsPrint` above U+00FF (a table lookup in the Go library) and
  `format.Source` are parameters of the functions that reach them.
* A Go error value is `Option String`: `none` is `nil`, `some msg` an error whose
  `Error()` text is `msg`.
* A Go map is the list of its pairs in the order in which `range` yields them.
-/

namespace Helper

/-! ## Types as package reflect sees them -/

/-- The kinds of `reflect.Kind` that the modelled types can have. -/
inductive Kind where
  | Bool | Int | Int8 | Int16 | Int32 | Int64
  | Uint | Uint8 | Uint16 | Uint32 | Uint64 | Uintptr
  | Float32 | Float64 | Complex64 | Complex128
  | Array | Chan | Func | Interface | Map | Pointer | Slice | String | Struct
  deriving DecidableEq, Repr

/-- The predeclared basic types. -/
inductive Basic where
  | bool | int | int8 | int16 | int32 | int64
  | uint | uint8 | uint16 | uint32 | uint64 | uintptr
  | float32 | float64 | complex64 | complex128 | string
  deriving DecidableEq, Repr

/-- The name of a predeclared type, which is both its `Name()` and its `String()`. -/
def Basic.name : Basic → String
  | .bool => "bool" | .int => "int" | .int8 => "int8" | .int16 => "int16"
  | .int32 => "int32" | .int64 => "int64"
  | .uint => "uint" | .uint8 => "uint8" | .uint16 => "uint16" | .uint32 => "uint32"
  | .uint64 => "uint64" | .uintptr => "uintptr"
  | .float32 => "float32" | .float64 => "float64"
  | .complex64 => "complex64" | .complex128 => "complex128" | .string => "string"

/-- The kind of a predeclared type. -/
def Basic.kind : Basic → Kind
  | .bool => .Bool | .int => .Int | .int8 => .Int8 | .int16 => .Int16
  | .int32 => .Int32 | .int64 => .Int64
  | .uint => .Uint | .uint8 => .Uint8 | .uint16 => .Uint16 | .uint32 => .Uint32
  | .uint64 => .Uint64 | .uintptr => .Uintptr
  | .float32 => .Float32 | .float64 => .Float64
  | .complex64 => .Complex64 | .complex128 => .Complex128 | .string => .String

/-- A Go type. `named pkg name u` is a defined type `pkg.name` with underlying type `u`.
A function type carries its signature as the compiler prints it after `func`, an
interface or unnamed struct type the text the compiler prints between its
braces; the fields of a struct are (field name, field type, value of the
`terraform` key of the field tag), in declaration order. -/
inductive GoType where
  | basic (b : Basic)
  | named (pkg name : String) (underlying : GoType)
  | pointer (elem : GoType)
  | slice (elem : GoType)
  | array (len : Nat) (elem : GoType)
  | map (key elem : GoType)
  | chan (elem : GoType)
  | func (signature : String)
  | iface (body : String)
  | struct (body : String) (fields : List (String × GoType × String))
  deriving Repr

namespace GoType

/-- Method `Kind()` of reflect.Type. -/
def Kind : GoType → Helper.Kind
  | basic b => b.kind
  | named _ _ u => u.Kind
  | pointer _ => .Pointer
  | slice _ => .Slice
  | array _ _ => .Array
  | map _ _ => .Map
  | chan _ => .Chan
  | func _ => .Func
  | iface _ => .Interface
  | struct _ _ => .Struct

/-- Method `Name()` of reflect.Type: the bare name of a defined or predeclared type,
empty for every other type. -/
def Name : GoType → String
  | basic b => b.name
  | named _ name _ => name
  | _ => ""

/-- Method `Elem()` of reflect.Type: the element type of an array, channel, map,
pointer or slice type; `none` where the Go method panics. -/
def Elem : GoType → Option GoType
  | named _ _ u => u.Elem
  | pointer e => some e
  | slice e => some e
  | array _ e => some e
  | map _ e => some e
  | chan e => some e
  | _ => none

/-- The struct fields `NumField()` and `Field(i)` enumerate; `none` where they panic
(the type is not of struct kind). -/
def Fields : GoType → Option (List (String × GoType × String))
  | named _ _ u => u.Fields
  | struct _ fs => some fs
  | _ => none

/-- The expression `typ.Elem().Name()`. The code evaluates it only after testing
that the kind is pointer or slice, where `Elem` does not panic (`Elem_isSome`);
the empty default is never taken there. -/
def ElemName (t : GoType) : String :=
  match t.Elem with
  | some e => e.Name
  | none => ""

/-- The test `typ.Elem().Kind() == reflect.Ptr`, evaluated under the same guard. -/
def ElemIsPointer (t : GoType) : Bool :=
  match t.Elem with
  | some e => e.Kind = .Pointer
  | none => false

/-- The expression `typ.Elem().Elem().Name()`, evaluated only after both kind tests. -/
def ElemElemName (t : GoType) : String :=
  match t.Elem with
  | some e => e.ElemName
  | none => ""

/-- Method `String()` of reflect.Type: a defined type is qualified by its package name. -/
def String : GoType → String
  | basic b => b.name
  | named pkg name _ => pkg ++ "." ++ name
  | pointer e => "*" ++ e.String
  | slice e => "[]" ++ e.String
  | array n e => "[" ++ toString n ++ "]" ++ e.String
  | map k e => "map[" ++ k.String ++ "]" ++ e.String
  | chan e => "chan " ++ e.String
  | func s => "func" ++ s
  | iface s => "interface \x7b" ++ s ++ "\x7d"
  | struct s _ => "struct \x7b" ++ s ++ "\x7d"

end GoType

/-- A struct field as `reflect.StructField` describes it. -/
abbrev StructField := String × GoType × String

/-- The declared name of the field. -/
def StructField.Name (f : StructField) : String := f.1

/-- The declared type of the field. -/
def StructField.Type (f : StructField) : GoType := f.2.1

/-- The value of `f.Tag.Get("terraform")`, empty when the key is absent. -/
def StructField.terraform (f : StructField) : String := f.2.2

/-- `time.Duration`, a defined type whose underlying type is `int64`. -/
def timeDuration : GoType := .named "time" "Duration" (.basic .int64)

/-- `time.Location`, of which only the name matters here. -/
def timeLocation : GoType := .named "time" "Location" (.struct "" [])

/-- `time.Time`, a defined struct type with three unexported, untagged fields. -/
def timeTime : GoType :=
  .named "time" "Time"
    (.struct " wall uint64; ext int64; loc *time.Location "
      [("wall", .basic .uint64, ""), ("ext", .basic .int64, ""),
       ("loc", .pointer timeLocation, "")])

/-- The type aliasedType of schema_test.go. -/
def aliasedType : GoType := .named "helper" "aliasedType" (.basic .string)

/-- The struct TestPrimitive of schema_test.go. -/
def TestPrimitive : GoType :=
  .named "helper" "TestPrimitive"
    (.struct
      " Bool bool \"terraform:\\\"bool\\\"\"; Int int \"terraform:\\\"int\\\"\"; UInt uint \"terraform:\\\"uint\\\"\"; UInt64 uint64 \"terraform:\\\"uint64\\\"\"; String string \"terraform:\\\"string\\\"\"; Aliased helper.aliasedType \"terraform:\\\"aliased_type\\\"\"; Time time.Time \"terraform:\\\"time\\\"\"; Duration time.Duration \"terraform:\\\"duration\\\"\"; StringSlice []string \"terraform:\\\"string_slice\\\"\"; StringMap map[string]string \"terraform:\\\"string_map\\\"\" "
      [("Bool", .basic .bool, "bool"), ("Int", .basic .int, "int"),
       ("UInt", .basic .uint, "uint"), ("UInt64", .basic .uint64, "uint64"),
       ("String", .basic .string, "string"), ("Aliased", aliasedType, "aliased_type"),
       ("Time", timeTime, "time"), ("Duration", timeDuration, "duration"),
       ("StringSlice", .slice (.basic .string), "string_slice"),
       ("StringMap", .map (.basic .string) (.basic .string), "string_map")])

/-- A dependency struct `api.TLSConfig` with one tagged and one untagged field. -/
def apiTLSConfig : GoType :=
  .named "api" "TLSConfig"
    (.struct " Address string \"terraform:\\\"address\\\"\"; Insecure bool "
      [("Address", .basic .string, "address"), ("Insecure", .basic .bool, "")])

/-- A struct `api.Config` with tagged fields, an untagged field and a nested struct. -/
def apiConfig : GoType :=
  .named "api" "Config"
    (.struct
      " Address string \"terraform:\\\"address\\\"\"; Token string; WaitTime time.Duration \"terraform:\\\"wait_time\\\"\"; TLSConfig api.TLSConfig \"terraform:\\\"tls\\\"\" "
      [("Address", .basic .string, "address"), ("Token", .basic .string, ""),
       ("WaitTime", timeDuration, "wait_time"), ("TLSConfig", apiTLSConfig, "tls")])

/-- A struct `api.Empty` without a tagged field. -/
def apiEmpty : GoType :=
  .named "api" "Empty" (.struct " Note string " [("Note", .basic .string, "")])

/-- A struct `api.Foo` that is used as a field type. -/
def apiFoo : GoType :=
  .named "api" "Foo"
    (.struct " Bar string \"terraform:\\\"bar\\\"\" " [("Bar", .basic .string, "bar")])

/-- A struct `api.Owner` whose only field `Zed`, tagged `zed`, is of type `api.Foo`. -/
def apiOwner : GoType :=
  .named "api" "Owner"
    (.struct " Zed api.Foo \"terraform:\\\"zed\\\"\" " [("Zed", apiFoo, "zed")])

/-- A struct `api.Holder` whose only field `Foos`, tagged `foos`, is of type
`[]api.Foo`. -/
def apiHolder : GoType :=
  .named "api" "Holder"
    (.struct " Foos []api.Foo \"terraform:\\\"foos\\\"\" " [("Foos", .slice apiFoo, "foos")])

/-- An unnamed struct type with one tagged field, as a dependency object of the form
`struct{ ... }{}`; its `Name()` is empty. -/
def unnamedStruct : GoType :=
  .struct " Note string \"terraform:\\\"note\\\"\" " [("Note", .basic .string, "note")]

/-! ## Library functions the code calls -/

/-- Method `Contains` of knownSchema (schema.go): linear search. -/
def Contains : List String → String → Bool
  | [], _ => false
  | v :: k, typ => if typ = v then true else Contains k typ

/-- The lower-case hexadecimal digit of a number below 16. -/
def hexDigit (n : Nat) : Char :=
  if n < 10 then Char.ofNat (48 + n) else Char.ofNat (87 + n)

/-- `strconv.IsPrint`; `wide` is the library table lookup for runes above U+00FF. -/
def isPrint (wide : Char → Bool) (c : Char) : Bool :=
  if c.toNat ≤ 0xFF then
    if 0x20 ≤ c.toNat ∧ c.toNat ≤ 0x7E then true
    else if 0xA1 ≤ c.toNat then c.toNat ≠ 0xAD
    else false
  else wide c

/-- The text `strconv.Quote` writes for one rune (appendEscapedRune with the
double quote as delimiter). -/
def quoteRune (wide : Char → Bool) (c : Char) : List Char :=
  if c = Char.ofNat 34 ∨ c = Char.ofNat 92 then [Char.ofNat 92, c]
  else if isPrint wide c then [c]
  else if c.toNat = 7 then [Char.ofNat 92, Char.ofNat 97]
  else if c.toNat = 8 then [Char.ofNat 92, Char.ofNat 98]
  else if c.toNat = 12 then [Char.ofNat 92, Char.ofNat 102]
  else if c.toNat = 10 then [Char.ofNat 92, Char.ofNat 110]
  else if c.toNat = 13 then [Char.ofNat 92, Char.ofNat 114]
  else if c.toNat = 9 then [Char.ofNat 92, Char.ofNat 116]
  else if c.toNat = 11 then [Char.ofNat 92, Char.ofNat 118]
  else if c.toNat < 0x20 ∨ c.toNat = 0x7F then
    [Char.ofNat 92, Char.ofNat 120, hexDigit (c.toNat / 16), hexDigit (c.toNat % 16)]
  else if c.toNat < 0x10000 then
    [Char.ofNat 92, Char.ofNat 117, hexDigit (c.toNat / 4096 % 16),
     hexDigit (c.toNat / 256 % 16), hexDigit (c.toNat / 16 % 16), hexDigit (c.toNat % 16)]
  else
    [Char.ofNat 92, Char.ofNat 85, hexDigit (c.toNat / 268435456 % 16),
     hexDigit (c.toNat / 16777216 % 16), hexDigit (c.toNat / 1048576 % 16),
     hexDigit (c.toNat / 65536 % 16), hexDigit (c.toNat / 4096 % 16),
     hexDigit (c.toNat / 256 % 16), hexDigit (c.toNat / 16 % 16), hexDigit (c.toNat % 16)]

/-- The verb `%q` of package fmt on a string: `strconv.Quote`. -/
def quote (wide : Char → Bool) (s : String) : String :=
  ⟨Char.ofNat 34 :: (s.data.flatMap (quoteRune wide) ++ [Char.ofNat 34])⟩

/-! ## camelCase (schema.go) -/

/-- The character class `[A-Z]`. -/
def isUpperAZ (c : Char) : Bool := 65 ≤ c.toNat ∧ c.toNat ≤ 90

/-- The tail `(.*)$` of the pattern: it matches a rest of the text that holds no
line feed, and nothing else. -/
def matchesRest (r : List Char) : Bool := r.all (fun c => c ≠ Char.ofNat 10)

/-- `r.FindStringSubmatch` for `^([A-Z]+)?([A-Z])(.*)$`, with the first group tried
at `k` characters and then, backtracking, at every shorter length down to the
unmatched group (`k = 0`). The result is (group 1, group 2, group 3). -/
def findSubmatchFrom (s : List Char) : Nat → Option (List Char × Char × List Char)
  | 0 =>
    match s with
    | c :: r => if isUpperAZ c && matchesRest r then some ([], c, r) else none
    | [] => none
  | k + 1 =>
    match s.drop (k + 1) with
    | c :: r =>
      if isUpperAZ c && matchesRest r then some (s.take (k + 1), c, r)
      else findSubmatchFrom s k
    | [] => findSubmatchFrom s k

/-- `r.FindStringSubmatch(s)`: the greedy first group starts at the whole leading
run of upper-case letters. -/
def findSubmatch (s : List Char) : Option (List Char × Char × List Char) :=
  findSubmatchFrom s (s.takeWhile isUpperAZ).length

/-- The function camelCase of schema.go. `strings.ToLower` is applied to groups that
hold only the letters A to Z. -/
def camelCase (s : String) : String :=
  match findSubmatch s.data with
  | none => s
  | some (g1, g2, g3) =>
    if g1 = [] then ⟨g2.toLower :: g3⟩
    else ⟨g1.map Char.toLower ++ g2 :: g3⟩

/-! ## The schema emitter (schema.go) -/

/-- Lines 150 to 178 of generateType: the switch on `typ.String()` followed by the
switch on `typ.Kind()`. The result is the builder text and the returned error. -/
def generateTypeSwitch (wide : Char → Bool) (filename : String) (b : String)
    (typ : GoType) : String × Option String :=
  if typ.String = "time.Duration" ∨ typ.String = "time.Time" then
    (b ++ "Type: types.StringType,\n", none)
  else if typ.String = "[]string" then
    (b ++ "Type: types.ListType\x7b\nElemType: types.StringType,\n\x7d,\n", none)
  else if typ.String = "map[string]string" then
    (b ++ "Type: types.MapType\x7b\nElemType: types.StringType,\n\x7d,\n", none)
  else
    match typ.Kind with
    | .Bool => (b ++ "Type: types.BoolType,\n", none)
    | .Int | .Int8 | .Int16 | .Int32 | .Int64
    | .Uint | .Uint8 | .Uint16 | .Uint32 | .Uint64 =>
      (b ++ "Type: types.NumberType,\n", none)
    | .String => (b ++ "Type: types.StringType,\n", none)
    | _ => (b, some (filename ++ (": missing type for " ++ quote wide typ.String)))

/-- The function generateType of schema.go. The result is the builder text after
the call and the returned error. -/
def generateType (wide : Char → Bool) (filename : String) (b : String) (typ : GoType)
    (known : List String) : String × Option String :=
  if Contains known typ.Name then
    (b ++ ("Attributes: tfsdk.SingleNestedAttributes(" ++ camelCase typ.Name ++ "),\n"), none)
  else if typ.Kind = .Pointer && Contains known typ.ElemName then
    (b ++ ("Attributes: tfsdk.SingleNestedAttributes(" ++ camelCase typ.ElemName ++ "),\n"),
      none)
  else if typ.Kind = .Slice then
    if Contains known typ.ElemName then
      (b ++ ("Attributes: tfsdk.ListNestedAttributes(" ++ camelCase typ.ElemName ++ "),\n"),
        none)
    else if typ.ElemIsPointer && Contains known typ.ElemElemName then
      (b ++ ("Attributes: tfsdk.ListNestedAttributes(" ++ camelCase typ.ElemElemName ++ "),\n"),
        none)
    else generateTypeSwitch wide filename b typ
  else generateTypeSwitch wide filename b typ

/-- The loop over the fields in generateSchema (lines 102 to 120). The state is the
builder text and the flag `found`; the result adds the error of the first tagged
field that generateType rejects, on which the function returns at once. -/
def generateSchemaLoop (wide : Char → Bool) (filename : String) (known : List String) :
    List StructField → String → Bool → String × Bool × Option String
  | [], b, found => (b, found, none)
  | field :: rest, b, found =>
    if field.terraform = "" then generateSchemaLoop wide filename known rest b found
    else
      match generateType wide filename (b ++ (quote wide field.terraform ++ ": \x7b\n"))
          field.Type known with
      | (b1, some err) => (b1, true, some err)
      | (b1, none) =>
        generateSchemaLoop wide filename known rest
          (b1 ++ "Optional: true,\n" ++ "\x7d,\n") true

/-- The function generateSchema of schema.go on an object of type `obj`. The result
is the builder text after the call, the returned name and the returned error;
`none` is the panic of `NumField` on an object that is not a struct. -/
def generateSchema (wide : Char → Bool) (filename : String) (b : String) (obj : GoType)
    (exported : Bool) (known : List String) : Option (String × String × Option String) :=
  let name := if exported then obj.Name else camelCase obj.Name
  match obj.Fields with
  | none => none
  | some fields =>
    match generateSchemaLoop wide filename known fields
        (b ++ (name ++ " = map[string]tfsdk.Attribute\x7b\n")) false with
    | (b1, _, some err) => some (b1, "", some err)
    | (b1, found, none) =>
      if found then some (b1 ++ "\x7d\n\n", name, none)
      else
        some (b1 ++ "\x7d\n\n", "",
          some (filename ++ (": no attribute found for " ++ obj.String)))

/-- The struct File of schema.go; an object is given by its dynamic type. -/
structure File where
  Name : String
  Imports : List String
  Object : GoType
  DependsOn : List GoType

/-- The text generateSchemaFile writes before the schemas. -/
def schemaFileHeader : String :=
  "package schema\n\nimport (\n\t\"github.com/hashicorp/terraform-plugin-framework/tfsdk\"\n\t\"github.com/hashicorp/terraform-plugin-framework/types\"\n)\n\nvar (\n"

/-- The loop over `f.DependsOn` in generateSchemaFile (lines 83 to 85): the name and
the error generateSchema returns are dropped, the builder text is kept. -/
def generateDependsOn (wide : Char → Bool) (filename : String) (known : List String) :
    List GoType → String → Option String
  | [], b => some b
  | obj :: rest, b =>
    match generateSchema wide filename b obj false known with
    | none => none
    | some (b1, _, _) => generateDependsOn wide filename known rest b1

/-- The function generateSchemaFile of schema.go. `fmtSource` is `format.Source`. The
result is the returned name, content and error; `none` is a panic. -/
def generateSchemaFile (wide : Char → Bool) (fmtSource : String → Except String String)
    (f : File) (known : List String) : Option (String × String × Option String) :=
  match generateSchema wide f.Name schemaFileHeader f.Object true known with
  | none => none
  | some (_, _, some err) => some ("", "", some err)
  | some (b, name, none) =>
    match generateDependsOn wide f.Name known f.DependsOn b with
    | none => none
    | some b1 =>
      match fmtSource (b1 ++ ")") with
      | .ok p => some (name, p, none)
      | .error err => some (name, "", some err)

/-! ## The model emitter (models.go) -/

/-- The struct field of models.go. -/
structure field where
  Name : String
  «Type» : String
  Annotation : String
  Setter : String
  Getter : String
  deriving DecidableEq, Repr

/-- The struct modelDefinition of models.go. -/
structure modelDefinition where
  Name : String
  PrivateName : String
  PkgName : String
  Fields : List field
  deriving DecidableEq, Repr

/-- The function getType of models.go. -/
def getType (typ : GoType) : String :=
  if typ.String = "time.Duration" ∨ typ.String = "time.Time" ∨ typ.String = "[]uint8" then
    "types.String"
  else if typ.String = "[]string" then "types.List"
  else if typ.String = "map[string]string" then "types.Map"
  else
    match typ.Kind with
    | .Bool => "types.Bool"
    | .Int | .Int8 | .Int16 | .Int32 | .Int64
    | .Uint | .Uint8 | .Uint16 | .Uint32 | .Uint64 => "types.Number"
    | .String => "types.String"
    | .Struct => "*" ++ typ.Name
    | .Pointer => "*" ++ typ.ElemName
    | _ => ""

/-- The function setter of models.go. -/
def setter (typ : GoType) (target tftyp name : String) : String :=
  if typ.String = "time.Duration" ∨ typ.String = "time.Time" then
    target ++ " = " ++ tftyp ++ "Value(" ++ name ++ ".String())"
  else if typ.String = "[]uint8" then
    target ++ " = " ++ tftyp ++ "Value(string(" ++ name ++ "))"
  else
    match typ.Kind with
    | .Bool => target ++ " = " ++ tftyp ++ "Value(" ++ name ++ ")"
    | .Int | .Int8 | .Int16 | .Int32 | .Int64
    | .Uint | .Uint8 | .Uint16 | .Uint32 | .Uint64 => "types.Number"
    | .String => target ++ " = " ++ tftyp ++ "Value(" ++ name ++ ")"
    | .Struct => target ++ " = New" ++ typ.Name ++ "(&" ++ name ++ ")"
    | .Pointer => target ++ " = New" ++ typ.ElemName ++ "(" ++ name ++ ")"
    | _ => target ++ " = " ++ tftyp ++ "Value(" ++ name ++ ")"

/-- The function getter of models.go; the parameter `tftyp` is not used by it. -/
def getter (typ : GoType) (target _tftyp name : String) : String :=
  if typ.String = "bool" then
    "\n\t\t\tif !" ++ name ++ ".IsNull() \x7b\n\t\t\t\t" ++ target ++ " = " ++ name ++
      ".ValueBool()\n\t\t\t\x7d"
  else if typ.String = "time.Duration" then
    "\n\t\t\tif !" ++ name ++ ".IsNull() \x7b\n\t\t\t\tif dur, err := time.ParseDuration(" ++
      name ++ ".ValueString()); err == nil \x7b\n\t\t\t\t\t" ++ target ++
      " = dur\n\t\t\t\t\x7d else \x7b\n\t\t\t\t\tdiags.Append(diag.NewErrorDiagnostic(\"Failed to convert " ++
      target ++ "\", err.Error()))\n\t\t\t\t\treturn diags\n\t\t\t\t\x7d\n\t\t\t\x7d\n\t\t\t"
  else if typ.String = "time.Time" then
    "\n\t\t\tif !" ++ name ++ ".IsNull() \x7b\n\t\t\t\t" ++ target ++ " = " ++ name ++
      ".ValueString()\n\t\t\t\x7d"
  else if typ.String = "[]uint8" then
    "\n\t\t\tif !" ++ name ++ ".IsNull() \x7b\n\t\t\t\t" ++ target ++ " = []byte(" ++ name ++
      ".ValueString())\n\t\t\t\x7d"
  else
    match typ.Kind with
    | .Struct =>
      "\n\t\tif " ++ name ++ " != nil \x7b\n\t\t\tdiags.Append(" ++ camelCase typ.Name ++
        "Decode(ctx, *" ++ name ++ ", &" ++ target ++ ")...)\n\t\t\x7d"
    | .Pointer =>
      "\n\t\tif " ++ name ++ " != nil \x7b\n\t\t\tdiags.Append(" ++ camelCase typ.ElemName ++
        "Decode(ctx, *" ++ name ++ ", " ++ target ++ ")...)\n\t\t\x7d"
    | _ =>
      "\n\t\tif !" ++ name ++ ".IsNull() \x7b\n\t\t\t" ++ target ++ " = " ++ name ++
        ".ValueString()\n\t\t\x7d"

/-- The loop over the fields in getModelDefinition (lines 72 to 87). -/
def getModelFields : List StructField → List field
  | [] => []
  | f :: rest =>
    if f.terraform = "" then getModelFields rest
    else
      { Name := f.Name
        «Type» := getType f.Type
        Annotation := "tfsdk:\"" ++ f.terraform ++ "\""
        Setter := setter f.Type ("obj." ++ f.Name) (getType f.Type) ("value." ++ f.Name)
        Getter := getter f.Type ("target." ++ f.Name) (getType f.Type) ("model." ++ f.Name) }
        :: getModelFields rest

/-- The function getModelDefinition of models.go on an object of type `obj`; `none`
is the panic of `NumField` on an object that is not a struct. -/
def getModelDefinition (obj : GoType) : Option modelDefinition :=
  match obj.Fields with
  | none => none
  | some fields =>
    some
      { Name := obj.Name
        PrivateName := camelCase obj.Name
        PkgName := obj.String
        Fields := getModelFields fields }

/-! ## The orchestrator (schema.go) -/

/-- The function write of schema.go. The file system is the list of the files
created so far with the text handed to `Write`; `fmtSource` is `format.Source` and
`create` gives the error of `os.Create` for a path, if it fails. The error of
`w.Write` is dropped by the code. -/
def write (fmtSource : String → Except String String) (create : String → Option String)
    (fs : List (String × String)) (name content : String) :
    List (String × String) × Option String :=
  match fmtSource content with
  | .error err => (fs, some err)
  | .ok p =>
    match create ("./internal/schema/" ++ name) with
    | some err => (fs, some err)
    | none => (fs ++ [("./internal/schema/" ++ name, p)], none)

/-- The first loop of GenerateFiles: the names of all dependency types of all units. -/
def knownOf : List File → List String
  | [] => []
  | f :: rest => f.DependsOn.map GoType.Name ++ knownOf rest

/-- The function `strings.Join`. -/
def joinSep (sep : String) : List String → String
  | [] => ""
  | [s] => s
  | s :: t :: rest => s ++ sep ++ joinSep sep (t :: rest)

/-- The text of the aggregate registry around the joined entries (schema.go, lines 36
to 46). -/
def registryText (entries : String) : String :=
  "package schema\n\nimport \"github.com/hashicorp/terraform-plugin-framework/tfsdk\"\n\n\nvar (\n\tSchema = map[string]tfsdk.Schema\x7b\n\t\t" ++
    entries ++ "\n\t\x7d\n)\n"

/-- The second loop of GenerateFiles (lines 23 to 34), with the file system and the
entries collected so far as state. The result is an error, on which the function
returns at once, or the entries; `none` is a panic. -/
def GenerateFilesLoop (wide : Char → Bool) (fmtSource : String → Except String String)
    (create : String → Option String) (known : List String) :
    List File → List (String × String) → List String →
      Option (List (String × String) × Except String (List String))
  | [], fs, schema => some (fs, .ok schema)
  | f :: rest, fs, schema =>
    match generateSchemaFile wide fmtSource f known with
    | none => none
    | some (_, _, some err) => some (fs, .error err)
    | some (schemaName, content, none) =>
      match write fmtSource create fs (f.Name ++ ".go") content with
      | (fs1, some err) => some (fs1, .error err)
      | (fs1, none) =>
        GenerateFilesLoop wide fmtSource create known rest fs1
          (schema ++ [quote wide f.Name ++ (": \x7bAttributes: " ++ (schemaName ++ "\x7d,"))])

/-- The function GenerateFiles of schema.go, from the file system `fs`. The result is
the file system after the call and the returned error; `none` is a panic. -/
def GenerateFiles (wide : Char → Bool) (fmtSource : String → Except String String)
    (create : String → Option String) (files : List File) (fs : List (String × String)) :
    Option (List (String × String) × Option String) :=
  match GenerateFilesLoop wide fmtSource create (knownOf files) files fs [] with
  | none => none
  | some (fs1, .error err) => some (fs1, some err)
  | some (fs1, .ok schema) =>
    some (write fmtSource create fs1 "schema.go" (registryText (joinSep "\n" schema)))

/-- The schema name generateSchemaFile returns for a unit. -/
def unitSchemaName (wide : Char → Bool) (fmtSource : String → Except String String)
    (known : List String) (f : File) : String :=
  match generateSchemaFile wide fmtSource f known with
  | some (name, _, _) => name
  | none => ""

/-- The file written for a unit that generates and is written: its path and the text
of the unit after the two formatting passes. -/
def unitFile (wide : Char → Bool) (fmtSource : String → Except String String)
    (known : List String) (f : File) : String × String :=
  ("./internal/schema/" ++ (f.Name ++ ".go"),
    match generateSchemaFile wide fmtSource f known with
    | some (_, content, _) =>
      (match fmtSource content with
       | .ok p => p
       | .error _ => "")
    | none => "")

/-- The registry entry of a unit. -/
def unitEntry (wide : Char → Bool) (fmtSource : String → Except String String)
    (known : List String) (f : File) : String :=
  quote wide f.Name ++ (": \x7bAttributes: " ++ (unitSchemaName wide fmtSource known f ++ "\x7d,"))

/-- A unit generates and is written: generateSchemaFile and write return no error. -/
def unitSucceeds (wide : Char → Bool) (fmtSource : String → Except String String)
    (create : String → Option String) (known : List String) (f : File) : Prop :=
  ∃ name content p, generateSchemaFile wide fmtSource f known = some (name, content, none) ∧
    fmtSource content = .ok p ∧ create ("./internal/schema/" ++ (f.Name ++ ".go")) = none

/-- A unit fails with the error `err`: generateSchemaFile returns it, or write does. -/
def unitFails (wide : Char → Bool) (fmtSource : String → Except String String)
    (create : String → Option String) (known : List String) (f : File) (err : String) : Prop :=
  (∃ name content, generateSchemaFile wide fmtSource f known = some (name, content, some err)) ∨
  (∃ name content, generateSchemaFile wide fmtSource f known = some (name, content, none) ∧
    (fmtSource content = .error err ∨
      ((∃ p, fmtSource content = .ok p) ∧
        create ("./internal/schema/" ++ (f.Name ++ ".go")) = some err)))

/-! ## Closed forms used in the statements -/

/-- The tagged fields of a struct: those with a non-empty `terraform` tag, in
declaration order. -/
def tagged (fields : List StructField) : List StructField :=
  fields.filter (fun f => f.terraform ≠ "")

/-- The text generateType appends to the builder for a field type. -/
def typeLines (wide : Char → Bool) (filename : String) (typ : GoType) (known : List String) :
    String :=
  (generateType wide filename "" typ known).1

/-- The error generateType returns for a field type. -/
def typeError (wide : Char → Bool) (filename : String) (typ : GoType) (known : List String) :
    Option String :=
  (generateType wide filename "" typ known).2

/-- One attribute block of a schema: the quoted attribute name, the type lines and
the optional marker. -/
def attributeBlock (wide : Char → Bool) (name lines : String) : String :=
  quote wide name ++ ": \x7b\n" ++ lines ++ "Optional: true,\n" ++ "\x7d,\n"

/-- The concatenation of a list of texts. -/
def joinAll : List String → String
  | [] => ""
  | s :: rest => s ++ joinAll rest

/-- The integer kinds that getType, setter and generateType list: every width and
signedness except `uintptr`. -/
def integerKinds : List Kind :=
  [.Int, .Int8, .Int16, .Int32, .Int64, .Uint, .Uint8, .Uint16, .Uint32, .Uint64]

/-- A conditional statement as the getter fragments lay it out: a line break, the
indented `if <guard>` with its opening brace, the body, the indented closing
brace and what follows it. -/
def ifBlock (indent guard body trailer : String) : String :=
  "\n" ++ (indent ++ ("if " ++ (guard ++ (" \x7b\n" ++ (body ++ (indent ++ ("\x7d" ++ trailer)))))))

/-- A text that holds no brace. -/
def braceFree (l : List Char) : Bool :=
  l.all (fun c => c ≠ Char.ofNat 123 ∧ c ≠ Char.ofNat 125)

/-- The nesting depth of braces after reading a text that starts at depth `d`; `none`
when a closing brace has no opening brace before it. -/
def braceScan : List Char → Nat → Option Nat
  | [], d => some d
  | c :: r, d =>
    if c = Char.ofNat 123 then braceScan r (d + 1)
    else if c = Char.ofNat 125 then
      match d with
      | 0 => none
      | d + 1 => braceScan r d
    else braceScan r d

/-- The reference definition of the casing transform: a text that does not begin with
one of the letters A to Z is unchanged; otherwise, with `n` the length of the
leading run of such letters, the first `max 1 (n - 1)` characters are put in
lower case and the rest is unchanged. -/
def camelCaseReference (s : String) : String :=
  let n := (s.data.takeWhile isUpperAZ).length
  if n = 0 then s
  else ⟨(s.data.take (max 1 (n - 1))).map Char.toLower ++ s.data.drop (max 1 (n - 1))⟩

/-- The attribute types of the spec. -/
inductive AttributeType where
  | Bool
  | Number
  | String
  | ListOfString
  | MapOfStringToString
  | NestedObject (name : String)
  | ListOfNestedObject (name : String)
  deriving DecidableEq, Repr

/-- The type lines of a schema attribute of the given attribute type; a nested type is
referred to by the identifier of its schema. -/
def schemaLines : AttributeType → String
  | .Bool => "Type: types.BoolType,\n"
  | .Number => "Type: types.NumberType,\n"
  | .String => "Type: types.StringType,\n"
  | .ListOfString => "Type: types.ListType\x7b\nElemType: types.StringType,\n\x7d,\n"
  | .MapOfStringToString => "Type: types.MapType\x7b\nElemType: types.StringType,\n\x7d,\n"
  | .NestedObject name => "Attributes: tfsdk.SingleNestedAttributes(" ++ camelCase name ++ "),\n"
  | .ListOfNestedObject name =>
    "Attributes: tfsdk.ListNestedAttributes(" ++ camelCase name ++ "),\n"

/-- The number of places of a text at which a pattern starts. -/
def countOccurrences (pat : List Char) : List Char → Nat
  | [] => if pat = [] then 1 else 0
  | c :: r => (if pat.isPrefixOf (c :: r) then 1 else 0) + countOccurrences pat r

/-- The provider struct of the scenario: three string fields tagged `host`, `username`
and `password`. -/
def hashicupsProvider : GoType :=
  .named "provider" "hashicupsProvider"
    (.struct
      " Host string \"terraform:\\\"host\\\"\"; Username string \"terraform:\\\"username\\\"\"; Password string \"terraform:\\\"password\\\"\" "
      [("Host", .basic .string, "host"), ("Username", .basic .string, "username"),
       ("Password", .basic .string, "password")])

/-- The text generateSchema writes for an object, by itself. -/
def schemaText (wide : Char → Bool) (filename : String) (obj : GoType) (exported : Bool)
    (known : List String) : String :=
  match generateSchema wide filename "" obj exported known with
  | some (text, _, _) => text
  | none => ""

/-- The text of modelsTemplate before the imports of the unit. -/
def modelsTemplateHeader : String :=
  "package models\n\nimport (\n\t\"context\"\n\t\"time\"\n\n\t\"github.com/hashicorp/terraform-plugin-framework/diag\"\n\t\"github.com/hashicorp/terraform-plugin-framework/types\"\n"

/-- The text of modelsTemplate between the imports and the models. -/
def modelsTemplateGetter : String :=
  "\n)\n\ntype Getter interface \x7b\n\tGet(ctx context.Context, target interface\x7b\x7d) diag.Diagnostics\n\x7d\n\n"

/-- The text the template writes for one model: the holder type with one line per
field, the constructor with the setter fragments and the two decode functions,
the second with the getter fragments. -/
def renderModel (m : modelDefinition) : String :=
    "\ntype " ++ m.Name ++ " struct \x7b\n\t" ++
    joinAll (m.Fields.map (fun x =>
      "\n\t" ++ x.Name ++ " " ++ x.Type ++ " `" ++ ( x.Annotation) ++ "`")) ++
    "\x7d\n\nfunc New" ++ m.Name ++ "(value *" ++ m.PkgName ++ ") *" ++ m.Name ++
      " \x7b\n\tif value == nil \x7b\n\t\treturn nil\n\t\x7d\n\n\tobj := " ++ m.Name ++
      "\x7b\x7d\n\n\t" ++
    joinAll (m.Fields.map (fun x =>
      "\n\t" ++ x.Setter)) ++
    "\n\n\treturn &obj\n\x7d\n\nfunc " ++ m.Name ++
      "Decode(ctx context.Context, conf Getter, target *" ++ m.PkgName ++
      ") diag.Diagnostics \x7b\n\tvar model " ++ m.Name ++
      "\n\n\tdiags := conf.Get(ctx, &model)\n\tif diags.HasError() \x7b\n\t\treturn diags\n\t\x7d\n\n\treturn " ++
      m.PrivateName ++ "Decode(ctx, model, target)\n\x7d\n\nfunc " ++ m.PrivateName ++
      "Decode(ctx context.Context, model " ++ m.Name ++ ", target *" ++ m.PkgName ++
      ") (diags diag.Diagnostics) \x7b\n\t" ++
    joinAll (m.Fields.map (fun x =>
      x.Getter)) ++
    "\n\n\treturn diags\n\x7d\n\n"

/-- The execution of modelsTemplate on the imports and the models. -/
def executeModelsTemplate (imports : List String) (models : List modelDefinition) : String :=
  modelsTemplateHeader ++
    joinAll (imports.map (fun imp =>
      "\"" ++ imp ++ "\"\n")) ++
    modelsTemplateGetter ++ joinAll (models.map renderModel) ++ "\n\n"
/-- The loop over the dependency objects in GenerateModels (lines 36 to 38); `none` is
the panic of getModelDefinition on an object that is not a struct. -/
def getModelDefinitions : List GoType → Option (List modelDefinition)
  | [] => some []
  | obj :: rest =>
    match getModelDefinition obj with
    | none => none
    | some m =>
      match getModelDefinitions rest with
      | none => none
      | some ms => some (m :: ms)

/-- The function GenerateModels of models.go. The template is a constant that parses,
and its execution on these data does not fail, so the returned error is the one of
`format.Source`. The parameter `known` is not used by the code. The result is the
returned text and error; `none` is a panic. -/
def GenerateModels (fmtSource : String → Except String String) (f : File)
    (_known : List String) : Option (String × Option String) :=
  match getModelDefinition f.Object with
  | none => none
  | some m =>
    match getModelDefinitions f.DependsOn with
    | none => none
    | some ms =>
      match fmtSource (executeModelsTemplate f.Imports (m :: ms)) with
      | .ok p => some (p, none)
      | .error err => some ("", some err)

/-! ## The snapshot harness (testing.go) -/

/-- A Go map with string keys, as the list of its pairs in the order in which a
`range` over it yields them; Go leaves that order open. -/
abbrev GoMap (α : Type) := List (String × α)

/-- The expression `m[k]` on a map of strings: the zero value, the empty string, when
the key is missing or the map is nil. -/
def GoMap.get (m : GoMap String) (k : String) : String :=
  match m with
  | [] => ""
  | (k1, v) :: rest => if k = k1 then v else GoMap.get rest k

/-- The expression `m[k]` on a map of maps: the nil map when the key is missing. -/
def GoMap.getMap (m : GoMap (GoMap String)) (k : String) : GoMap String :=
  match m with
  | [] => []
  | (k1, v) :: rest => if k = k1 then v else GoMap.getMap rest k

/-- The statement `m[k] = v`: the value of an existing key is replaced, a new key is
added. -/
def GoMap.set {α : Type} (m : GoMap α) (k : String) (v : α) : GoMap α :=
  match m with
  | [] => [(k, v)]
  | (k1, v1) :: rest => if k = k1 then (k1, v) :: rest else (k1, v1) :: GoMap.set rest k v

/-- The type state of testing.go. -/
abbrev state := GoMap (GoMap String)

/-- The checks of package resource that checkFunction builds. -/
inductive TestCheckFunc where
  | TestCheckResourceAttrSet (name key : String)
  | TestCheckResourceAttr (name key value : String)
  deriving DecidableEq, Repr

/-- The inner loop of checkFunction (lines 118 to 129). -/
def checkAttrs (name : String) : GoMap String → List TestCheckFunc → List TestCheckFunc
  | [], testFuncs => testFuncs
  | (attr, value) :: rest, testFuncs =>
    checkAttrs name rest
      (testFuncs ++
        [if value = "set()" then TestCheckFunc.TestCheckResourceAttrSet name attr
         else TestCheckFunc.TestCheckResourceAttr name attr value])

/-- The outer loop of checkFunction (lines 117 to 130). -/
def checkResources : state → List TestCheckFunc → List TestCheckFunc
  | [], testFuncs => testFuncs
  | (name, attrs) :: rest, testFuncs => checkResources rest (checkAttrs name attrs testFuncs)

/-- The function checkFunction of testing.go on the result of readSavedState (the nil
state when the file does not exist). The result is the list of checks handed to
`ComposeAggregateTestCheckFunc`; `none` is the failed `require.NoError`, which ends
the test. -/
def checkFunction (saved : Except String state) : Option (List TestCheckFunc) :=
  match saved with
  | .error _ => none
  | .ok st => some (checkResources st [])

/-- The inner loop of diffAndRecordCheckFunction (lines 148 to 158). -/
def diffAttrs (oldResource : GoMap String) : GoMap String → GoMap String → GoMap String
  | [], attrs => attrs
  | (k, v) :: rest, attrs =>
    if k = "%" then diffAttrs oldResource rest attrs
    else if oldResource.get k = v then diffAttrs oldResource rest (attrs.set k v)
    else diffAttrs oldResource rest (attrs.set k "set()")

/-- The outer loop of diffAndRecordCheckFunction (lines 144 to 161) over the resources
of the root module, each given by the attributes of its primary instance. -/
def diffResources (old : state) : GoMap (GoMap String) → state → state
  | [], new => new
  | (name, attributes) :: rest, new =>
    diffResources old rest (new.set name (diffAttrs (old.getMap name) attributes []))

/-- The function diffAndRecordCheckFunction of testing.go on the result of
readSavedState and the live resources. The result is the error of readSavedState,
on which nothing is written, or the state handed to writeState. -/
def diffAndRecordCheckFunction (saved : Except String state)
    (resources : GoMap (GoMap String)) : Except String state :=
  match saved with
  | .error err => .error err
  | .ok old => .ok (diffResources old resources [])

/-- The keys of a map. -/
def GoMap.keys {α : Type} (m : GoMap α) : List String := m.map Prod.fst

/-- The comma-ok form `v, ok := m[k]`: the value the map holds for the key, if any. -/
def GoMap.find? {α : Type} (m : GoMap α) (k : String) : Option α :=
  match m with
  | [] => none
  | (k1, v) :: rest => if k = k1 then some v else GoMap.find? rest k

/-- The baseline holds the attribute `k` of the resource `name` with the value `v`. -/
def baselineHolds (old : state) (name k v : String) : Prop :=
  ∃ attrs, old.find? name = some attrs ∧ attrs.find? k = some v

/-! ## Shared lemmas -/

/-- Appending to the same builder text is injective in what is appended. -/
theorem append_left_cancel (b x y : String) (h : b ++ x = b ++ y) : x = y := by
  have h1 : (b ++ x).data = (b ++ y).data := by rw [h]
  simp only [String.data_append] at h1
  exact String.ext (List.append_cancel_left h1)

/-- Method `Contains` decides membership in the list of known names. -/
theorem Contains_iff (k : List String) (typ : String) : Contains k typ = true ↔ typ ∈ k := by
  induction k with
  | nil => simp [Contains]
  | cons v k ih =>
    unfold Contains
    by_cases h : typ = v
    · simp [h]
    · simp [h, ih]

/-- Method `Elem()` does not panic on a type of pointer or slice kind, the kinds
under which generateType, getType, setter and getter call it. -/
theorem Elem_isSome : (t : GoType) → (t.Kind = .Pointer ∨ t.Kind = .Slice) →
    t.Elem.isSome = true
  | .basic b, h => by cases b <;> simp [GoType.Kind, Basic.kind] at h
  | .named _ _ u, h => by
    have ih := Elem_isSome u (by simpa [GoType.Kind] using h)
    simpa [GoType.Elem] using ih
  | .pointer _, _ => rfl
  | .slice _, _ => rfl
  | .array _ _, _ => rfl
  | .map _ _, _ => rfl
  | .chan _, _ => rfl
  | .func _, h => by simp [GoType.Kind] at h
  | .iface _, h => by simp [GoType.Kind] at h
  | .struct _ _, h => by simp [GoType.Kind] at h

/-! ## The type mapper: exact names and the known set -/

/-- The order of the tests in generateType: the known names are tested before the type
string. What the function writes for a `time.Duration` and a `time.Time` field on
every list of known names, and for a `[]string` and a `map[string]string` field
on every list that does not hold the empty name. -/
theorem generateType_exact_names (wide : Char → Bool) (filename b : String)
    (known : List String) :
    generateType wide filename b timeDuration known =
        (if Contains known "Duration" then
          (b ++ "Attributes: tfsdk.SingleNestedAttributes(duration),\n", none)
         else (b ++ "Type: types.StringType,\n", none)) ∧
    generateType wide filename b timeTime known =
        (if Contains known "Time" then
          (b ++ "Attributes: tfsdk.SingleNestedAttributes(time),\n", none)
         else (b ++ "Type: types.StringType,\n", none)) ∧
    (Contains known "" = false →
      generateType wide filename b (.slice (.basic .string)) known =
        (if Contains known "string" then
          (b ++ "Attributes: tfsdk.ListNestedAttributes(string),\n", none)
         else (b ++ "Type: types.ListType\x7b\nElemType: types.StringType,\n\x7d,\n", none))) ∧
    (Contains known "" = false →
      generateType wide filename b (.map (.basic .string) (.basic .string)) known =
        (b ++ "Type: types.MapType\x7b\nElemType: types.StringType,\n\x7d,\n", none)) := by
  refine ⟨?_, ?_, ?_, ?_⟩
  · cases h : Contains known "Duration" <;>
      simp [generateType, generateTypeSwitch, timeDuration, GoType.Name, GoType.Kind,
        GoType.String, Basic.kind, h]
    rfl
  · cases h : Contains known "Time" <;>
      simp [generateType, generateTypeSwitch, timeTime, GoType.Name, GoType.Kind,
        GoType.String, h]
    rfl
  · intro h0
    cases h : Contains known "string" <;>
      simp [generateType, generateTypeSwitch, GoType.Name, GoType.Kind, GoType.ElemName,
        GoType.Elem, GoType.ElemIsPointer, GoType.String, Basic.kind, Basic.name, h0, h]
    rfl
  · intro h0
    simp [generateType, generateTypeSwitch, GoType.Name, GoType.Kind, GoType.ElemName,
        GoType.Elem, GoType.ElemIsPointer, GoType.String, Basic.kind, Basic.name, h0]

/-- C1: with the bare name of the field type among the known names, generateType
writes a nested object for a `time.Duration`, `time.Time`, `[]string` or
`map[string]string` field, where the claim has the String, list and map attribute
types; getType, which tests the type string first and reads no known name, gives
the same fields the holder types `types.String`, `types.List` and `types.Map`, so
that schema and holder disagree. -/
theorem generateType_known_name_shadows_exact_name :
    generateType (fun _ => true) "unit" "" timeDuration ["Duration"] =
      ("Attributes: tfsdk.SingleNestedAttributes(duration),\n", none) ∧
    getType timeDuration = "types.String" ∧
    generateType (fun _ => true) "unit" "" timeTime ["Time"] =
      ("Attributes: tfsdk.SingleNestedAttributes(time),\n", none) ∧
    getType timeTime = "types.String" ∧
    generateType (fun _ => true) "unit" "" (.slice (.basic .string)) [""] =
      ("Attributes: tfsdk.SingleNestedAttributes(),\n", none) ∧
    getType (.slice (.basic .string)) = "types.List" ∧
    generateType (fun _ => true) "unit" "" (.map (.basic .string) (.basic .string)) [""] =
      ("Attributes: tfsdk.SingleNestedAttributes(),\n", none) ∧
    getType (.map (.basic .string) (.basic .string)) = "types.Map" ∧
    setter timeDuration "obj.Wait" "types.String" "value.Wait" =
      "obj.Wait = types.StringValue(value.Wait.String())" := by
  decide

/-- C2: generateType never emits the String attribute type for a `[]uint8` field. It
treats the field as a nested object when the empty name or `uint8` is a known
name and returns the error `missing type for "[]uint8"` otherwise, while getType
maps the same field to `types.String`. -/
theorem generateType_bytes (wide : Char → Bool) (filename b : String) (known : List String) :
    generateType wide filename b (.slice (.basic .uint8)) known =
        (if Contains known "" then
          (b ++ "Attributes: tfsdk.SingleNestedAttributes(),\n", none)
         else if Contains known "uint8" then
          (b ++ "Attributes: tfsdk.ListNestedAttributes(uint8),\n", none)
         else (b, some (filename ++ ": missing type for \"[]uint8\""))) ∧
    getType (.slice (.basic .uint8)) = "types.String" := by
  refine ⟨?_, by decide⟩
  cases h0 : Contains known "" <;> cases h : Contains known "uint8" <;>
    simp [generateType, generateTypeSwitch, GoType.Name, GoType.Kind, GoType.ElemName,
      GoType.Elem, GoType.ElemIsPointer, GoType.String, Basic.kind, Basic.name, h0, h] <;>
    rfl

/-! ## Schema emitter against model emitter -/

/-- The type string of a defined type holds a dot, so it is none of the names below. -/
theorem qualified_ne_undotted (pkg name : String) :
    ∀ s ∈ ["uint8", "string", "[]uint8", "[]string", "map[string]string", "bool"],
      pkg ++ "." ++ name ≠ s := by
  have h1 : '.' ∈ (pkg ++ "." ++ name).data := by simp
  intro s hs h
  rw [h] at h1
  simp only [List.mem_cons, List.mem_singleton, List.not_mem_nil, or_false] at hs
  rcases hs with rfl | rfl | rfl | rfl | rfl | rfl <;> revert h1 <;> decide

/-- The type string of a pointer type is none of the exact names that generateType,
getType, setter and getter single out. -/
theorem pointer_String_not_exact (e : GoType) :
    ∀ s ∈ ["time.Duration", "time.Time", "[]uint8", "[]string", "map[string]string", "bool"],
      (GoType.pointer e).String ≠ s := by
  intro s hs h
  simp only [GoType.String] at h
  simp only [List.mem_cons, List.mem_singleton, List.not_mem_nil, or_false] at hs
  rcases hs with rfl | rfl | rfl | rfl | rfl | rfl <;>
  · have := congrArg String.data h
    simp at this

/-- The type string of a slice is none of the exact names when the element type is
neither `uint8` nor `string`. -/
theorem slice_String_not_exact (e : GoType) (h8 : e.String ≠ "uint8")
    (hstr : e.String ≠ "string") :
    ∀ s ∈ ["time.Duration", "time.Time", "[]uint8", "[]string", "map[string]string", "bool"],
      (GoType.slice e).String ≠ s := by
  intro s hs h
  simp only [GoType.String] at h
  simp only [List.mem_cons, List.mem_singleton, List.not_mem_nil, or_false] at hs
  rcases hs with rfl | rfl | rfl | rfl | rfl | rfl
  · have := congrArg String.data h
    simp at this
  · have := congrArg String.data h
    simp at this
  · exact h8 (append_left_cancel "[]" _ "uint8" h)
  · exact hstr (append_left_cancel "[]" _ "string" h)
  · have := congrArg String.data h
    simp at this
  · have := congrArg String.data h
    simp at this

/-- The type string of a slice of pointers is none of the exact names. -/
theorem slice_pointer_String_not_exact (e : GoType) :
    ∀ s ∈ ["time.Duration", "time.Time", "[]uint8", "[]string", "map[string]string", "bool"],
      (GoType.slice (.pointer e)).String ≠ s := by
  intro s hs h
  simp only [GoType.String] at h
  simp only [List.mem_cons, List.mem_singleton, List.not_mem_nil, or_false] at hs
  rcases hs with rfl | rfl | rfl | rfl | rfl | rfl <;>
  · have := congrArg String.data h
    simp at this

/-- C3: on a field that is a slice of a known defined type, directly or through one
pointer, generateType succeeds with a list of nested objects while getType has no
case for the slice kind and returns the empty holder type. -/
theorem getType_slice_of_known_empty (wide : Char → Bool) (filename b pkg name : String)
    (u : GoType) (known : List String) (h0 : Contains known "" = false)
    (hk : Contains known name = true) :
    generateType wide filename b (.slice (.named pkg name u)) known =
      (b ++ ("Attributes: tfsdk.ListNestedAttributes(" ++ camelCase name ++ "),\n"), none) ∧
    getType (.slice (.named pkg name u)) = "" ∧
    generateType wide filename b (.slice (.pointer (.named pkg name u))) known =
      (b ++ ("Attributes: tfsdk.ListNestedAttributes(" ++ camelCase name ++ "),\n"), none) ∧
    getType (.slice (.pointer (.named pkg name u))) = "" := by
  have hq := qualified_ne_undotted pkg name
  have e1 := slice_String_not_exact (.named pkg name u) (hq "uint8" (by simp))
    (hq "string" (by simp))
  have e2 := slice_pointer_String_not_exact (.named pkg name u)
  simp only [List.mem_cons, List.mem_singleton, List.not_mem_nil, or_false, forall_eq_or_imp,
    forall_eq] at e1 e2
  refine ⟨?_, ?_, ?_, ?_⟩
  · simp [generateType, GoType.Name, GoType.Kind, GoType.ElemName, GoType.Elem, h0, hk]
  · simp [getType, GoType.Kind, e1]
  · simp [generateType, GoType.Name, GoType.Kind, GoType.ElemName, GoType.Elem,
      GoType.ElemIsPointer, GoType.ElemElemName, h0, hk]
  · simp [getType, GoType.Kind, e2]

/-- C3: the failing input, a field of type `[]api.Foo` or `[]*api.Foo` with `Foo` known. -/
theorem getType_slice_of_known_empty_witness :
    generateType (fun _ => true) "unit" "" (.slice apiFoo) ["Foo"] =
      ("Attributes: tfsdk.ListNestedAttributes(foo),\n", none) ∧
    getType (.slice apiFoo) = "" ∧
    generateType (fun _ => true) "unit" "" (.slice (.pointer apiFoo)) ["Foo"] =
      ("Attributes: tfsdk.ListNestedAttributes(foo),\n", none) ∧
    getType (.slice (.pointer apiFoo)) = "" :=
  getType_slice_of_known_empty (fun _ => true) "unit" "" "api" "Foo" _ ["Foo"]
    (by decide) (by decide)

/-! ## The schema of one type -/

/-- What generateType writes and returns does not depend on the text already in
the builder. -/
theorem generateType_builder (wide : Char → Bool) (filename b : String) (typ : GoType)
    (known : List String) :
    generateType wide filename b typ known =
      (b ++ typeLines wide filename typ known, typeError wide filename typ known) := by
  unfold typeLines typeError generateType generateTypeSwitch
  split_ifs <;> simp <;> cases typ.Kind <;> simp

/-- The loop of generateSchema returns the error of the first tagged field that
generateType rejects, if there is one. -/
theorem generateSchemaLoop_err (wide : Char → Bool) (filename : String) (known : List String)
    (fields : List StructField) (b : String) (found : Bool) :
    (generateSchemaLoop wide filename known fields b found).2.2 =
      (tagged fields).findSome? (fun f => typeError wide filename f.Type known) := by
  induction fields generalizing b found with
  | nil => simp [generateSchemaLoop, tagged]
  | cons f rest ih =>
    unfold generateSchemaLoop
    by_cases ht : f.terraform = ""
    · simp only [ht, if_true]
      rw [ih]
      simp [tagged, List.filter_cons, ht]
    · simp only [ht, if_false]
      rw [generateType_builder]
      cases he : typeError wide filename f.Type known with
      | some err => simp [tagged, List.filter_cons, ht, he, List.findSome?_cons]
      | none =>
        simp only []
        rw [ih]
        simp [tagged, List.filter_cons, ht, he, List.findSome?_cons]

/-- When generateType accepts every tagged field, the loop of generateSchema writes
one attribute block per tagged field, in declaration order, and sets `found` as
soon as there is a tagged field. -/
theorem generateSchemaLoop_ok (wide : Char → Bool) (filename : String) (known : List String)
    (fields : List StructField) (b : String) (found : Bool)
    (h : (tagged fields).findSome? (fun f => typeError wide filename f.Type known) = none) :
    generateSchemaLoop wide filename known fields b found =
      (b ++ joinAll ((tagged fields).map
          (fun f => attributeBlock wide f.terraform (typeLines wide filename f.Type known))),
        found || !(tagged fields).isEmpty, none) := by
  induction fields generalizing b found with
  | nil => simp [generateSchemaLoop, tagged, joinAll]
  | cons f rest ih =>
    unfold generateSchemaLoop
    by_cases ht : f.terraform = ""
    · have h1 : tagged (f :: rest) = tagged rest := by simp [tagged, List.filter_cons, ht]
      simp only [ht, if_true]
      rw [h1] at h ⊢
      exact ih b found h
    · have h1 : tagged (f :: rest) = f :: tagged rest := by simp [tagged, List.filter_cons, ht]
      rw [h1, List.findSome?_cons] at h
      simp only [ht, if_false]
      rw [generateType_builder]
      cases he : typeError wide filename f.Type known with
      | some err => simp [he] at h
      | none =>
        simp only [he] at h
        simp only []
        rw [ih _ true h, h1]
        simp [joinAll, attributeBlock, String.append_assoc]

/-- The loop of getModelDefinition keeps exactly the tagged fields, in order. -/
theorem getModelFields_eq (fields : List StructField) :
    getModelFields fields =
      (tagged fields).map (fun f =>
        { Name := f.Name
          «Type» := getType f.Type
          Annotation := "tfsdk:\"" ++ f.terraform ++ "\""
          Setter := setter f.Type ("obj." ++ f.Name) (getType f.Type) ("value." ++ f.Name)
          Getter := getter f.Type ("target." ++ f.Name) (getType f.Type) ("model." ++ f.Name) }) := by
  induction fields with
  | nil => simp [getModelFields, tagged]
  | cons f rest ih =>
    unfold getModelFields
    by_cases ht : f.terraform = ""
    · simp only [ht, if_true]
      rw [ih]
      simp [tagged, List.filter_cons, ht]
    · simp only [ht, if_false]
      rw [ih]
      simp [tagged, List.filter_cons, ht]

/-- The three outcomes of generateSchema on a struct: the error of the first rejected
tagged field, the error for a type without tagged field, or the schema text. -/
theorem generateSchema_cases (wide : Char → Bool) (filename b : String) (obj : GoType)
    (fields : List StructField) (exported : Bool) (known : List String)
    (hobj : obj.Fields = some fields) :
    (∃ b1 err, (tagged fields).findSome? (fun f => typeError wide filename f.Type known) = some err
      ∧ generateSchema wide filename b obj exported known = some (b1, "", some err)) ∨
    ((tagged fields).findSome? (fun f => typeError wide filename f.Type known) = none ∧
      tagged fields = [] ∧ ∃ b1,
      generateSchema wide filename b obj exported known =
        some (b1, "", some (filename ++ (": no attribute found for " ++ obj.String)))) ∨
    ((tagged fields).findSome? (fun f => typeError wide filename f.Type known) = none ∧
      tagged fields ≠ [] ∧
      generateSchema wide filename b obj exported known =
        some (b ++ ((if exported then obj.Name else camelCase obj.Name) ++
                " = map[string]tfsdk.Attribute\x7b\n") ++
              joinAll ((tagged fields).map (fun f =>
                attributeBlock wide f.terraform (typeLines wide filename f.Type known))) ++
              "\x7d\n\n",
          if exported then obj.Name else camelCase obj.Name, none)) := by
  cases hfs : (tagged fields).findSome? (fun f => typeError wide filename f.Type known) with
  | some err =>
    left
    have he := generateSchemaLoop_err wide filename known fields
      (b ++ ((if exported then obj.Name else camelCase obj.Name) ++
        " = map[string]tfsdk.Attribute\x7b\n")) false
    rw [hfs] at he
    rcases hl : generateSchemaLoop wide filename known fields
      (b ++ ((if exported then obj.Name else camelCase obj.Name) ++
        " = map[string]tfsdk.Attribute\x7b\n")) false with ⟨b1, found, e⟩
    rw [hl] at he
    simp only at he
    subst he
    exact ⟨b1, err, rfl, by simp [generateSchema, hobj, hl]⟩
  | none =>
    right
    have hl := generateSchemaLoop_ok wide filename known fields
      (b ++ ((if exported then obj.Name else camelCase obj.Name) ++
        " = map[string]tfsdk.Attribute\x7b\n")) false hfs
    by_cases ht : tagged fields = []
    · left
      refine ⟨rfl, ht, ?_⟩
      simp [generateSchema, hobj, hl, ht]
    · right
      refine ⟨rfl, ht, ?_⟩
      have hne : (tagged fields).isEmpty = false := by
        cases hq : tagged fields with
        | nil => exact absurd hq ht
        | cons a l => rfl
      simp [generateSchema, hobj, hl, hne]

/-- C4: a field is emitted iff its `terraform` tag is non-empty. The holder fields of
getModelDefinition are the tagged fields in declaration order, each annotated
`tfsdk:"<tag>"` with its own tag, and when generateSchema succeeds the text it
wrote is the header, one attribute block per tagged field under its quoted tag,
in the same order, and the closing brace. -/
theorem emitted_fields_are_tagged_fields (wide : Char → Bool) (filename b : String)
    (obj : GoType) (fields : List StructField) (exported : Bool) (known : List String)
    (hobj : obj.Fields = some fields) :
    (∀ f ∈ fields, f ∈ tagged fields ↔ f.terraform ≠ "") ∧
    (∃ m, getModelDefinition obj = some m ∧
      m.Fields.map (fun x => (x.Name, x.Annotation)) =
        (tagged fields).map (fun f => (f.Name, "tfsdk:\"" ++ f.terraform ++ "\""))) ∧
    (∀ b1 name, generateSchema wide filename b obj exported known = some (b1, name, none) →
      b1 = b ++ (name ++ " = map[string]tfsdk.Attribute\x7b\n") ++
            joinAll ((tagged fields).map (fun f =>
              attributeBlock wide f.terraform (typeLines wide filename f.Type known))) ++
            "\x7d\n\n") := by
  refine ⟨?_, ?_, ?_⟩
  · intro f hf
    simp [tagged, hf]
  · have hm : getModelDefinition obj =
        some { Name := obj.Name, PrivateName := camelCase obj.Name, PkgName := obj.String,
               Fields := getModelFields fields } := by
      simp [getModelDefinition, hobj]
    refine ⟨_, hm, ?_⟩
    simp [getModelFields_eq]
  · intro b1 name h
    rcases generateSchema_cases wide filename b obj fields exported known hobj with
      ⟨b2, err, _, h1⟩ | ⟨_, _, b2, h1⟩ | ⟨_, _, h1⟩
    · rw [h1] at h
      simp at h
    · rw [h1] at h
      simp at h
    · rw [h1] at h
      simp only [Option.some.injEq, Prod.mk.injEq, and_true] at h
      rw [← h.2, ← h.1]

/-- C4: the statement at `api.Config`, whose second field is untagged; the schema text
is written out. -/
theorem emitted_fields_are_tagged_fields_witness :
    apiConfig.Fields =
      some [("Address", .basic .string, "address"), ("Token", .basic .string, ""),
        ("WaitTime", timeDuration, "wait_time"), ("TLSConfig", apiTLSConfig, "tls")] ∧
    generateSchema (fun _ => true) "unit" "" apiConfig true ["TLSConfig"] =
      some ("Config = map[string]tfsdk.Attribute\x7b\n\"address\": \x7b\nType: types.StringType,\nOptional: true,\n\x7d,\n\"wait_time\": \x7b\nType: types.StringType,\nOptional: true,\n\x7d,\n\"tls\": \x7b\nAttributes: tfsdk.SingleNestedAttributes(tlsConfig),\nOptional: true,\n\x7d,\n\x7d\n\n",
        "Config", none) ∧
    (∃ m, getModelDefinition apiConfig = some m ∧
      m.Fields.map (fun x => (x.Name, x.Annotation)) =
        [("Address", "tfsdk:\"address\""), ("WaitTime", "tfsdk:\"wait_time\""),
         ("TLSConfig", "tfsdk:\"tls\"")]) :=
  ⟨rfl, by rfl,
   (emitted_fields_are_tagged_fields (fun _ => true) "unit" "" apiConfig _ true ["TLSConfig"]
      rfl).2.1⟩

/-- C5: on a struct, generateSchema returns an error iff the type has no tagged field
or generateType rejects one of its tagged fields, and the returned name is then
empty; generateSchemaFile on a unit whose primary type has no tagged field returns
the error with empty name and empty content. -/
theorem generateSchema_error_iff (wide : Char → Bool)
    (fmtSource : String → Except String String) (filename b : String) (obj : GoType)
    (fields : List StructField) (exported : Bool) (known : List String) (f : File)
    (hobj : obj.Fields = some fields) :
    (∃ b1 name err, generateSchema wide filename b obj exported known = some (b1, name, err) ∧
      (err ≠ none ↔
        (tagged fields = [] ∨
          ∃ x ∈ tagged fields, typeError wide filename x.Type known ≠ none)) ∧
      (err ≠ none → name = "")) ∧
    (f.Object = obj → tagged fields = [] →
      generateSchemaFile wide fmtSource f known =
        some ("", "", some (f.Name ++ (": no attribute found for " ++ obj.String)))) := by
  constructor
  · rcases generateSchema_cases wide filename b obj fields exported known hobj with
      ⟨b2, err, hfs, h1⟩ | ⟨_, ht, b2, h1⟩ | ⟨hfs, ht, h1⟩
    · refine ⟨b2, "", some err, h1, ?_, fun _ => rfl⟩
      obtain ⟨x, hx, hxe⟩ := List.exists_of_findSome?_eq_some hfs
      simp only [ne_eq, reduceCtorEq, not_false_eq_true, true_iff]
      exact Or.inr ⟨x, hx, by simp [hxe]⟩
    · exact ⟨b2, "", _, h1, by simp [ht], fun _ => rfl⟩
    · refine ⟨_, _, none, h1, ?_, fun h => absurd rfl h⟩
      rw [List.findSome?_eq_none_iff] at hfs
      simp only [ne_eq, not_true_eq_false, false_iff, not_or, not_exists, not_and, not_not]
      exact ⟨ht, hfs⟩
  · intro hf ht
    subst hf
    rcases generateSchema_cases wide f.Name schemaFileHeader f.Object fields true known hobj with
      ⟨b2, err, hfs, _⟩ | ⟨_, _, b2, h1⟩ | ⟨_, hne, _⟩
    · simp [ht] at hfs
    · simp [generateSchemaFile, h1]
    · exact absurd ht hne

/-- C5: the statement at the unit whose primary type is `api.Empty`. -/
theorem generateSchema_error_iff_witness :
    apiEmpty.Fields = some [("Note", .basic .string, "")] ∧
    generateSchemaFile (fun _ => true) (fun s => .ok s) ⟨"unit", [], apiEmpty, []⟩ [] =
      some ("", "", some "unit: no attribute found for api.Empty") :=
  ⟨rfl,
   (generateSchema_error_iff (fun _ => true) (fun s => .ok s) "unit" "" apiEmpty _ true []
      ⟨"unit", [], apiEmpty, []⟩ rfl).2 rfl rfl⟩

/-! ## Errors of dependency types -/

set_option maxRecDepth 100000 in
/-- C6: generateSchemaFile drops the error generateSchema returns for a dependency
type. For the unit with primary type `api.TLSConfig` and the dependency
`api.Empty`, which has no tagged field, generateSchema on the dependency
returns the error, and generateSchemaFile returns the primary name together with
whatever `format.Source` makes of the text, which holds the empty schema. -/
theorem generateSchemaFile_drops_dependency_error :
    (∀ b : String, ∃ b1, generateSchema (fun _ => true) "unit" b apiEmpty false ["Empty"] =
      some (b1, "", some "unit: no attribute found for api.Empty")) ∧
    (∀ fmtSource : String → Except String String,
      generateSchemaFile (fun _ => true) fmtSource ⟨"unit", [], apiTLSConfig, [apiEmpty]⟩ ["Empty"] =
        match fmtSource
          "package schema\n\nimport (\n\t\"github.com/hashicorp/terraform-plugin-framework/tfsdk\"\n\t\"github.com/hashicorp/terraform-plugin-framework/types\"\n)\n\nvar (\nTLSConfig = map[string]tfsdk.Attribute\x7b\n\"address\": \x7b\nType: types.StringType,\nOptional: true,\n\x7d,\n\x7d\n\nempty = map[string]tfsdk.Attribute\x7b\n\x7d\n\n)" with
        | .ok p => some ("TLSConfig", p, none)
        | .error err => some ("TLSConfig", "", some err)) ∧
    generateSchemaFile (fun _ => true) (fun s => .ok s) ⟨"unit", [], apiTLSConfig, [apiEmpty]⟩
        ["Empty"] =
      some ("TLSConfig",
        "package schema\n\nimport (\n\t\"github.com/hashicorp/terraform-plugin-framework/tfsdk\"\n\t\"github.com/hashicorp/terraform-plugin-framework/types\"\n)\n\nvar (\nTLSConfig = map[string]tfsdk.Attribute\x7b\n\"address\": \x7b\nType: types.StringType,\nOptional: true,\n\x7d,\n\x7d\n\nempty = map[string]tfsdk.Attribute\x7b\n\x7d\n\n)",
        none) := by
  refine ⟨?_, ?_, by rfl⟩
  · intro b
    rcases generateSchema_cases (fun _ => true) "unit" b apiEmpty _ false ["Empty"] rfl with
      ⟨b2, err, hfs, _⟩ | ⟨_, _, b2, h1⟩ | ⟨_, hne, _⟩
    · simp [tagged, StructField.terraform] at hfs
    · exact ⟨b2, h1⟩
    · simp [tagged, StructField.terraform] at hne
  · intro fmtSource
    rfl

/-! ## Fields of an unknown struct type -/

/-- The type string of a type of struct kind is a qualified name or begins with
`struct`; it is none of the names below. -/
theorem struct_String_not_exact (T : GoType) (hT : T.Kind = .Struct) :
    ∀ s ∈ ["uint8", "string", "[]uint8", "[]string", "map[string]string", "bool"],
      T.String ≠ s := by
  cases T with
  | basic b => cases b <;> simp [GoType.Kind, Basic.kind] at hT
  | named pkg name u => exact qualified_ne_undotted pkg name
  | struct body fields =>
    intro s hs h
    simp only [GoType.String] at h
    simp only [List.mem_cons, List.mem_singleton, List.not_mem_nil, or_false] at hs
    rcases hs with rfl | rfl | rfl | rfl | rfl | rfl <;>
    · have := congrArg String.data h
      simp at this
  | pointer e => simp [GoType.Kind] at hT
  | slice e => simp [GoType.Kind] at hT
  | array n e => simp [GoType.Kind] at hT
  | map k e => simp [GoType.Kind] at hT
  | chan e => simp [GoType.Kind] at hT
  | func sg => simp [GoType.Kind] at hT
  | iface bd => simp [GoType.Kind] at hT

/-- The mapping error generateType returns for a field whose type is a struct type
with an unknown name, a pointer to it, a slice of it or a slice of pointers to
it: the message holds the file name and the quoted type string. -/
theorem typeError_unknown_struct (wide : Char → Bool) (filename : String) (T : GoType)
    (known : List String) (typ : GoType) (hT : T.Kind = .Struct)
    (hleaf : T.String ≠ "time.Duration" ∧ T.String ≠ "time.Time")
    (hk : Contains known T.Name = false)
    (hty : typ = T ∨
      (Contains known "" = false ∧
        (typ = .pointer T ∨ typ = .slice T ∨ typ = .slice (.pointer T)))) :
    typeError wide filename typ known =
      some (filename ++ (": missing type for " ++ quote wide typ.String)) := by
  have hc := struct_String_not_exact T hT
  have e1 := slice_String_not_exact T (hc "uint8" (by simp)) (hc "string" (by simp))
  have e2 := slice_pointer_String_not_exact T
  have e3 := pointer_String_not_exact T
  simp only [List.mem_cons, List.mem_singleton, List.not_mem_nil, or_false, forall_eq_or_imp,
    forall_eq] at hc e1 e2 e3
  have n1 : (GoType.pointer T).Name = "" := rfl
  have n2 : (GoType.slice T).Name = "" := rfl
  have n3 : (GoType.slice (.pointer T)).Name = "" := rfl
  have k1 : (GoType.pointer T).Kind = .Pointer := rfl
  have k2 : (GoType.slice T).Kind = .Slice := rfl
  have k3 : (GoType.slice (.pointer T)).Kind = .Slice := rfl
  have m1 : (GoType.pointer T).ElemName = T.Name := rfl
  have m2 : (GoType.slice T).ElemName = T.Name := rfl
  have m3 : (GoType.slice (.pointer T)).ElemName = "" := rfl
  have p2 : (GoType.slice T).ElemIsPointer = false := by simp [GoType.ElemIsPointer, GoType.Elem, hT]
  have p3 : (GoType.slice (.pointer T)).ElemIsPointer = true := by
    simp [GoType.ElemIsPointer, GoType.Elem, GoType.Kind]
  have q3 : (GoType.slice (.pointer T)).ElemElemName = T.Name := rfl
  rcases hty with rfl | ⟨h0, rfl | rfl | rfl⟩
  · simp [typeError, generateType, generateTypeSwitch, hk, hT, hleaf, hc]
  · simp [typeError, generateType, generateTypeSwitch, n1, k1, m1, hk, h0, e3]
  · simp [typeError, generateType, generateTypeSwitch, n2, k2, m2, p2, hk, h0, e1]
  · simp [typeError, generateType, generateTypeSwitch, n3, k3, m3, p3, q3, hk, h0, e2]

/-- C7 (as amended): a tagged field whose type `T` is a struct type other than
`time.Duration` and `time.Time` with a bare name that is not known (or, when the
empty name is not known either, a pointer to `T`, a slice of `T` or a slice of
pointers to `T`) makes generateSchema on the owning type fail with an empty name.
The mapping error for the field is `<file name>: missing type for <quoted type
string>`, which holds the unit and the declared type and not the field; it is the
error generateSchema returns when generateType accepts the tagged fields before it. -/
theorem generateSchema_unknown_struct_field (wide : Char → Bool) (filename b : String)
    (T : GoType) (obj : GoType) (pre post : List StructField) (fld : StructField)
    (exported : Bool) (known : List String)
    (hobj : obj.Fields = some (pre ++ fld :: post)) (htag : fld.terraform ≠ "")
    (hT : T.Kind = .Struct)
    (hleaf : T.String ≠ "time.Duration" ∧ T.String ≠ "time.Time")
    (hk : Contains known T.Name = false)
    (hty : fld.Type = T ∨
      (Contains known "" = false ∧
        (fld.Type = .pointer T ∨ fld.Type = .slice T ∨ fld.Type = .slice (.pointer T)))) :
    typeError wide filename fld.Type known =
      some (filename ++ (": missing type for " ++ quote wide fld.Type.String)) ∧
    (∃ b1 err, generateSchema wide filename b obj exported known = some (b1, "", some err)) ∧
    ((∀ x ∈ tagged pre, typeError wide filename x.Type known = none) →
      ∃ b1, generateSchema wide filename b obj exported known =
        some (b1, "",
          some (filename ++ (": missing type for " ++ quote wide fld.Type.String)))) := by
  have hte := typeError_unknown_struct wide filename T known fld.Type hT hleaf hk hty
  have htg : tagged (pre ++ fld :: post) = tagged pre ++ fld :: tagged post := by
    simp [tagged, List.filter_cons, htag]
  refine ⟨hte, ?_, ?_⟩
  · rcases generateSchema_cases wide filename b obj _ exported known hobj with
      ⟨b2, err, _, h1⟩ | ⟨hfs, _, _, _⟩ | ⟨hfs, _, _⟩
    · exact ⟨b2, err, h1⟩
    · rw [List.findSome?_eq_none_iff] at hfs
      have := hfs fld (by rw [htg]; simp)
      rw [hte] at this
      simp at this
    · rw [List.findSome?_eq_none_iff] at hfs
      have := hfs fld (by rw [htg]; simp)
      rw [hte] at this
      simp at this
  · intro hpre
    have hfs : (tagged (pre ++ fld :: post)).findSome?
        (fun f => typeError wide filename f.Type known) =
        some (filename ++ (": missing type for " ++ quote wide fld.Type.String)) := by
      rw [htg, List.findSome?_append, List.findSome?_eq_none_iff.mpr hpre, List.findSome?_cons,
        hte]
      rfl
    rcases generateSchema_cases wide filename b obj _ exported known hobj with
      ⟨b2, err, hfs1, h1⟩ | ⟨hfs1, _, _, _⟩ | ⟨hfs1, _, _⟩
    · rw [hfs] at hfs1
      cases hfs1
      exact ⟨b2, h1⟩
    · rw [hfs] at hfs1
      cases hfs1
    · rw [hfs] at hfs1
      cases hfs1

/-- C7: the amended statement at `api.Owner`, whose field `Zed` is of the unknown
struct type `api.Foo`. -/
theorem generateSchema_unknown_struct_field_witness :
    apiOwner.Fields = some ([] ++ ("Zed", apiFoo, "zed") :: []) ∧
    typeError (fun _ => true) "unit" apiFoo [] = some "unit: missing type for \"api.Foo\"" ∧
    ∃ b1, generateSchema (fun _ => true) "unit" "" apiOwner false [] =
      some (b1, "", some "unit: missing type for \"api.Foo\"") :=
  have h := generateSchema_unknown_struct_field (fun _ => true) "unit" "" apiFoo
    apiOwner [] [] ("Zed", apiFoo, "zed") false [] rfl (by decide) rfl
    ⟨by decide, by decide⟩ rfl (Or.inl rfl)
  ⟨rfl, h.1, h.2.2 (by simp [tagged])⟩

/-- C7 (as stated) fails: the error generateSchema returns for the field `Zed`, tagged
`zed`, of `api.Owner` holds the unit and the declared type of the field, and
neither the name of the field nor its tag. -/
theorem generateSchema_error_omits_field :
    generateSchema (fun _ => true) "unit" "" apiOwner false [] =
      some ("owner = map[string]tfsdk.Attribute\x7b\n\"zed\": \x7b\n", "",
        some "unit: missing type for \"api.Foo\"") ∧
    ¬ ("Zed".data <:+: "unit: missing type for \"api.Foo\"".data) ∧
    ¬ ("zed".data <:+: "unit: missing type for \"api.Foo\"".data) := by
  refine ⟨by rfl, by decide, by decide⟩

/-! ## Setter and getter fragments -/

/-- C8: for a field type that is not an exact-name override, setter returns the
assignment `<target> = <tftyp>Value(<name>)` when the kind is boolean or string,
and the bare text `types.Number`, which is not an assignment, when the kind is
an integer kind. -/
theorem setter_primitive (typ : GoType) (target tftyp name : String)
    (hs : ∀ s ∈ ["time.Duration", "time.Time", "[]uint8"], typ.String ≠ s) :
    (typ.Kind = .Bool ∨ typ.Kind = .String →
      setter typ target tftyp name = target ++ " = " ++ tftyp ++ "Value(" ++ name ++ ")") ∧
    (typ.Kind ∈ integerKinds → setter typ target tftyp name = "types.Number") := by
  simp only [List.mem_cons, List.mem_singleton, List.not_mem_nil, or_false, forall_eq_or_imp,
    forall_eq] at hs
  constructor
  · intro hk
    rcases hk with hk | hk <;> simp [setter, hs, hk]
  · intro hk
    simp only [integerKinds, List.mem_cons, List.mem_singleton, List.not_mem_nil, or_false] at hk
    rcases hk with hk | hk | hk | hk | hk | hk | hk | hk | hk | hk <;> simp [setter, hs, hk]

/-- C8: the failing input, the field `Int int` of TestPrimitive with the arguments
getModelDefinition passes, next to the field `Bool bool`. -/
theorem setter_primitive_witness :
    setter (.basic .int) "obj.Int" "types.Number" "value.Int" = "types.Number" ∧
    setter (.basic .bool) "obj.Bool" "types.Bool" "value.Bool" =
      "obj.Bool = types.BoolValue(value.Bool)" :=
  ⟨(setter_primitive (.basic .int) "obj.Int" "types.Number" "value.Int" (by decide)).2
      (by decide),
   (setter_primitive (.basic .bool) "obj.Bool" "types.Bool" "value.Bool" (by decide)).1
      (Or.inl rfl)⟩

set_option maxRecDepth 100000 in
/-- C9 (as amended): for `time.Duration` the getter fragment parses the holder's text
with `time.ParseDuration` and, when that fails, appends a diagnostic that names
the target and returns `diags` at once; for `[]uint8` the fragment converts the
holder's text with `[]byte(...)`, which cannot fail, and is the guarded
assignment alone. -/
theorem getter_leaf_fragments (target tftyp name : String) :
    getter timeDuration target tftyp name =
      "\n\t\t\tif !" ++ name ++ ".IsNull() \x7b\n\t\t\t\tif dur, err := time.ParseDuration(" ++
        name ++ ".ValueString()); err == nil \x7b\n\t\t\t\t\t" ++ target ++
        " = dur\n\t\t\t\t\x7d else \x7b\n\t\t\t\t\tdiags.Append(diag.NewErrorDiagnostic(\"Failed to convert " ++
        target ++ "\", err.Error()))\n\t\t\t\t\treturn diags\n\t\t\t\t\x7d\n\t\t\t\x7d\n\t\t\t" ∧
    ("time.ParseDuration(" ++ name ++ ".ValueString())").data <:+:
      (getter timeDuration target tftyp name).data ∧
    ("diags.Append(diag.NewErrorDiagnostic(\"Failed to convert " ++ target ++
        "\", err.Error()))\n\t\t\t\t\treturn diags\n").data <:+:
      (getter timeDuration target tftyp name).data ∧
    getter (.slice (.basic .uint8)) target tftyp name =
      "\n\t\t\tif !" ++ name ++ ".IsNull() \x7b\n\t\t\t\t" ++ target ++ " = []byte(" ++ name ++
        ".ValueString())\n\t\t\t\x7d" := by
  have hd : getter timeDuration target tftyp name =
      "\n\t\t\tif !" ++ name ++ ".IsNull() \x7b\n\t\t\t\tif dur, err := time.ParseDuration(" ++
        name ++ ".ValueString()); err == nil \x7b\n\t\t\t\t\t" ++ target ++
        " = dur\n\t\t\t\t\x7d else \x7b\n\t\t\t\t\tdiags.Append(diag.NewErrorDiagnostic(\"Failed to convert " ++
        target ++ "\", err.Error()))\n\t\t\t\t\treturn diags\n\t\t\t\t\x7d\n\t\t\t\x7d\n\t\t\t" := by
    simp [getter, timeDuration, GoType.String]
  refine ⟨hd, ?_, ?_, ?_⟩
  · rw [hd]
    refine ⟨("\n\t\t\tif !" ++ name ++ ".IsNull() \x7b\n\t\t\t\tif dur, err := ").data,
      ("; err == nil \x7b\n\t\t\t\t\t" ++ target ++
        " = dur\n\t\t\t\t\x7d else \x7b\n\t\t\t\t\tdiags.Append(diag.NewErrorDiagnostic(\"Failed to convert " ++
        target ++ "\", err.Error()))\n\t\t\t\t\treturn diags\n\t\t\t\t\x7d\n\t\t\t\x7d\n\t\t\t").data, ?_⟩
    simp [String.data_append]
  · rw [hd]
    refine ⟨("\n\t\t\tif !" ++ name ++ ".IsNull() \x7b\n\t\t\t\tif dur, err := time.ParseDuration(" ++
        name ++ ".ValueString()); err == nil \x7b\n\t\t\t\t\t" ++ target ++
        " = dur\n\t\t\t\t\x7d else \x7b\n\t\t\t\t\t").data,
      ("\t\t\t\t\x7d\n\t\t\t\x7d\n\t\t\t").data, ?_⟩
    simp [String.data_append]
  · simp [getter, GoType.String, Basic.name]

set_option maxRecDepth 100000 in
/-- C9 (as stated) fails: the getter fragments for `[]uint8` and `time.Time` hold no
early `return diags` and append no diagnostic; the one for `time.Time` assigns
the holder's text without parsing it. -/
theorem getter_leaf_without_early_return :
    getter (.slice (.basic .uint8)) "target.Data" "types.String" "model.Data" =
      "\n\t\t\tif !model.Data.IsNull() \x7b\n\t\t\t\ttarget.Data = []byte(model.Data.ValueString())\n\t\t\t\x7d" ∧
    ¬ ("return diags".data <:+:
        (getter (.slice (.basic .uint8)) "target.Data" "types.String" "model.Data").data) ∧
    getter timeTime "target.Time" "types.String" "model.Time" =
      "\n\t\t\tif !model.Time.IsNull() \x7b\n\t\t\t\ttarget.Time = model.Time.ValueString()\n\t\t\t\x7d" ∧
    ¬ ("return diags".data <:+:
        (getter timeTime "target.Time" "types.String" "model.Time").data) ∧
    ¬ ("diags.Append".data <:+:
        (getter timeTime "target.Time" "types.String" "model.Time").data) := by
  refine ⟨by rfl, by decide, by rfl, by decide, by decide⟩

/-- C10: for a field of integer kind whose type string is none of the exact names,
getType declares `types.Number`, yet getter reads the holder with `ValueString()`,
the accessor of `types.String`, and setter returns the bare text `types.Number`
in place of a wrapping assignment. -/
theorem getter_number_reads_string (typ : GoType) (target tftyp name : String)
    (hk : typ.Kind ∈ integerKinds)
    (hs : ∀ s ∈ ["bool", "time.Duration", "time.Time", "[]uint8", "[]string",
      "map[string]string"], typ.String ≠ s) :
    getType typ = "types.Number" ∧
    getter typ target tftyp name =
      "\n\t\tif !" ++ name ++ ".IsNull() \x7b\n\t\t\t" ++ target ++ " = " ++ name ++
        ".ValueString()\n\t\t\x7d" ∧
    setter typ target tftyp name = "types.Number" := by
  simp only [List.mem_cons, List.mem_singleton, List.not_mem_nil, or_false, forall_eq_or_imp,
    forall_eq] at hs
  simp only [integerKinds, List.mem_cons, List.mem_singleton, List.not_mem_nil, or_false] at hk
  rcases hk with hk | hk | hk | hk | hk | hk | hk | hk | hk | hk <;>
    simp [getType, getter, setter, hs, hk]

/-- C10: the failing input, the field `Int int` of TestPrimitive with the arguments
getModelDefinition passes. -/
theorem getter_number_reads_string_witness :
    getType (.basic .int) = "types.Number" ∧
    getter (.basic .int) "target.Int" "types.Number" "model.Int" =
      "\n\t\tif !model.Int.IsNull() \x7b\n\t\t\ttarget.Int = model.Int.ValueString()\n\t\t\x7d" ∧
    setter (.basic .int) "obj.Int" "types.Number" "value.Int" = "types.Number" :=
  ⟨(getter_number_reads_string (.basic .int) "target.Int" "types.Number" "model.Int"
      (by decide) (by decide)).1,
   (getter_number_reads_string (.basic .int) "target.Int" "types.Number" "model.Int"
      (by decide) (by decide)).2.1,
   (getter_number_reads_string (.basic .int) "obj.Int" "types.Number" "value.Int"
      (by decide) (by decide)).2.2⟩

/-! ## Guards of the getter fragments -/

/-- Reading two texts in a row adds up their brace scans. -/
theorem braceScan_append (a b : List Char) (d : Nat) :
    braceScan (a ++ b) d = (braceScan a d).bind (braceScan b) := by
  induction a generalizing d with
  | nil => simp [braceScan]
  | cons c r ih =>
    simp only [List.cons_append, braceScan]
    split_ifs
    · exact ih (d + 1)
    · cases d with
      | zero => simp
      | succ d => exact ih d
    · exact ih d

/-- A text without braces leaves the depth unchanged. -/
theorem braceScan_braceFree (l : List Char) (h : braceFree l = true) (d : Nat) :
    braceScan l d = some d := by
  induction l with
  | nil => rfl
  | cons c r ih =>
    simp only [braceFree, List.all_cons, Bool.and_eq_true, decide_eq_true_eq] at h
    have hr : braceFree r = true := h.2
    simp [braceScan, h.1.1, h.1.2, ih hr]

/-- Scanning a text and then another one, on strings. -/
theorem braceScan_data_append (a b : String) (d e : Nat) (h : braceScan a.data d = some e) :
    braceScan (a ++ b).data d = braceScan b.data e := by
  rw [String.data_append, braceScan_append, h]
  rfl

/-- Two texts without braces make a text without braces. -/
theorem braceFree_data_append (a b : String) (ha : braceFree a.data = true)
    (hb : braceFree b.data = true) : braceFree (a ++ b).data = true := by
  simp only [braceFree, String.data_append, List.all_append, Bool.and_eq_true] at *
  exact ⟨ha, hb⟩

set_option maxRecDepth 100000 in
/-- C11: every getter fragment is one conditional statement between white space. Its
guard is `<name> != nil` when the kind is struct or pointer and the type string is
none of the exact names of getter, and `!<name>.IsNull()` otherwise; the
assignment to the target stands in the body, whose braces are balanced when the
names put into it hold no brace, so that the closing brace of the fragment is
the one of the guard. -/
theorem getter_assigns_under_guard (typ : GoType) (target tftyp name : String) :
    ∃ indent guard body trailer,
      getter typ target tftyp name = ifBlock indent guard body trailer ∧
      (indent = "\t\t" ∨ indent = "\t\t\t") ∧
      (trailer = "" ∨ trailer = "\n\t\t\t") ∧
      guard =
        (if (typ.Kind = .Struct ∨ typ.Kind = .Pointer) ∧
            typ.String ∉ ["bool", "time.Duration", "time.Time", "[]uint8"] then
          name ++ " != nil"
         else "!" ++ name ++ ".IsNull()") ∧
      (braceFree target.data = true → braceFree name.data = true →
        braceFree (camelCase typ.Name).data = true →
        braceFree (camelCase typ.ElemName).data = true →
        braceScan body.data 0 = some 0) := by
  by_cases h1 : typ.String = "bool"
  · refine ⟨"\t\t\t", "!" ++ name ++ ".IsNull()",
      "\t\t\t\t" ++ (target ++ (" = " ++ (name ++ ".ValueBool()\n"))), "", ?_, Or.inr rfl,
      Or.inl rfl, ?_, ?_⟩
    · rw [getter, if_pos h1]
      simp only [ifBlock, String.append_assoc]
      rfl
    · simp [h1]
    · intro ht hn _ _
      exact braceScan_braceFree _ (braceFree_data_append _ _ (by rfl) (braceFree_data_append _ _ ht
        (braceFree_data_append _ _ (by rfl) (braceFree_data_append _ _ hn (by rfl))))) 0
  by_cases h2 : typ.String = "time.Duration"
  · refine ⟨"\t\t\t", "!" ++ name ++ ".IsNull()",
      "\t\t\t\tif dur, err := time.ParseDuration(" ++ (name ++
        (".ValueString()); err == nil \x7b\n\t\t\t\t\t" ++ (target ++
        (" = dur\n\t\t\t\t\x7d else \x7b\n\t\t\t\t\tdiags.Append(diag.NewErrorDiagnostic(\"Failed to convert " ++
        (target ++ "\", err.Error()))\n\t\t\t\t\treturn diags\n\t\t\t\t\x7d\n"))))),
      "\n\t\t\t", ?_, Or.inr rfl, Or.inr rfl, ?_, ?_⟩
    · rw [getter, if_neg h1, if_pos h2]
      simp only [ifBlock, String.append_assoc]
      rfl
    · simp [h2]
    · intro ht hn _ _
      refine (braceScan_data_append _ _ 0 0 ?_).trans ?_
      · rfl
      refine (braceScan_data_append _ _ 0 0 (braceScan_braceFree _ hn 0)).trans ?_
      refine (braceScan_data_append _ _ 0 1 ?_).trans ?_
      · rfl
      refine (braceScan_data_append _ _ 1 1 (braceScan_braceFree _ ht 1)).trans ?_
      refine (braceScan_data_append _ _ 1 1 ?_).trans ?_
      · rfl
      refine (braceScan_data_append _ _ 1 1 (braceScan_braceFree _ ht 1)).trans ?_
      rfl
  by_cases h3 : typ.String = "time.Time"
  · refine ⟨"\t\t\t", "!" ++ name ++ ".IsNull()",
      "\t\t\t\t" ++ (target ++ (" = " ++ (name ++ ".ValueString()\n"))), "", ?_, Or.inr rfl,
      Or.inl rfl, ?_, ?_⟩
    · rw [getter, if_neg h1, if_neg h2, if_pos h3]
      simp only [ifBlock, String.append_assoc]
      rfl
    · simp [h3]
    · intro ht hn _ _
      exact braceScan_braceFree _ (braceFree_data_append _ _ (by rfl) (braceFree_data_append _ _ ht
        (braceFree_data_append _ _ (by rfl) (braceFree_data_append _ _ hn (by rfl))))) 0
  by_cases h4 : typ.String = "[]uint8"
  · refine ⟨"\t\t\t", "!" ++ name ++ ".IsNull()",
      "\t\t\t\t" ++ (target ++ (" = []byte(" ++ (name ++ ".ValueString())\n"))), "", ?_,
      Or.inr rfl, Or.inl rfl, ?_, ?_⟩
    · rw [getter, if_neg h1, if_neg h2, if_neg h3, if_pos h4]
      simp only [ifBlock, String.append_assoc]
      rfl
    · simp [h4]
    · intro ht hn _ _
      exact braceScan_braceFree _ (braceFree_data_append _ _ (by rfl) (braceFree_data_append _ _ ht
        (braceFree_data_append _ _ (by rfl) (braceFree_data_append _ _ hn (by rfl))))) 0
  by_cases hS : typ.Kind = .Struct
  · refine ⟨"\t\t", name ++ " != nil",
      "\t\t\tdiags.Append(" ++ (camelCase typ.Name ++ ("Decode(ctx, *" ++ (name ++ (", &" ++
        (target ++ ")...)\n"))))), "", ?_, Or.inl rfl, Or.inl rfl, ?_, ?_⟩
    · rw [getter, if_neg h1, if_neg h2, if_neg h3, if_neg h4]
      simp only [hS, ifBlock, String.append_assoc]
      rfl
    · simp [h1, h2, h3, h4, hS]
    · intro ht hn hc _
      exact braceScan_braceFree _ (braceFree_data_append _ _ (by rfl) (braceFree_data_append _ _ hc
        (braceFree_data_append _ _ (by rfl) (braceFree_data_append _ _ hn
        (braceFree_data_append _ _ (by rfl) (braceFree_data_append _ _ ht (by rfl))))))) 0
  by_cases hP : typ.Kind = .Pointer
  · refine ⟨"\t\t", name ++ " != nil",
      "\t\t\tdiags.Append(" ++ (camelCase typ.ElemName ++ ("Decode(ctx, *" ++ (name ++ (", " ++
        (target ++ ")...)\n"))))), "", ?_, Or.inl rfl, Or.inl rfl, ?_, ?_⟩
    · rw [getter, if_neg h1, if_neg h2, if_neg h3, if_neg h4]
      simp only [hP, ifBlock, String.append_assoc]
      rfl
    · simp [h1, h2, h3, h4, hP]
    · intro ht hn _ hc
      exact braceScan_braceFree _ (braceFree_data_append _ _ (by rfl) (braceFree_data_append _ _ hc
        (braceFree_data_append _ _ (by rfl) (braceFree_data_append _ _ hn
        (braceFree_data_append _ _ (by rfl) (braceFree_data_append _ _ ht (by rfl))))))) 0
  · refine ⟨"\t\t", "!" ++ name ++ ".IsNull()",
      "\t\t\t" ++ (target ++ (" = " ++ (name ++ ".ValueString()\n"))), "", ?_, Or.inl rfl,
      Or.inl rfl, ?_, ?_⟩
    · rw [getter, if_neg h1, if_neg h2, if_neg h3, if_neg h4]
      cases hk : typ.Kind <;> simp only [hk, reduceCtorEq, not_true_eq_false] at hS hP <;>
        simp only [ifBlock, String.append_assoc] <;> rfl
    · simp [hS, hP]
    · intro ht hn _ _
      exact braceScan_braceFree _ (braceFree_data_append _ _ (by rfl) (braceFree_data_append _ _ ht
        (braceFree_data_append _ _ (by rfl) (braceFree_data_append _ _ hn (by rfl))))) 0

/-! ## The casing transform -/

/-- The tail of the pattern matches every part of a text without line feed. -/
theorem matchesRest_of_subset (l r : List Char) (h : matchesRest l = true)
    (hs : ∀ c ∈ r, c ∈ l) : matchesRest r = true := by
  simp only [matchesRest, List.all_eq_true, decide_eq_true_eq] at *
  exact fun c hc => h c (hs c hc)

/-- On a text that does not begin with a letter A to Z the pattern does not match. -/
theorem findSubmatch_none (l : List Char) (h : ∀ c r, l = c :: r → isUpperAZ c = false) :
    findSubmatch l = none := by
  cases l with
  | nil => rfl
  | cons c r =>
    have hc := h c r rfl
    simp [findSubmatch, List.takeWhile_cons, hc, findSubmatchFrom]

/-- The match of the pattern on a text without line feed whose leading run of letters
A to Z is `init` followed by `last`: the first group is `init`, the second `last`. -/
theorem findSubmatch_run (init rest : List Char) (last : Char)
    (hinit : ∀ c ∈ init, isUpperAZ c = true) (hlast : isUpperAZ last = true)
    (hrest : ∀ c r, rest = c :: r → isUpperAZ c = false)
    (hlf : matchesRest (init ++ last :: rest) = true) :
    findSubmatch (init ++ last :: rest) = some (init, last, rest) := by
  have hrun : (init ++ last :: rest).takeWhile isUpperAZ = init ++ [last] := by
    rw [List.takeWhile_append_of_pos hinit, List.takeWhile_cons_of_pos hlast]
    cases rest with
    | nil => rfl
    | cons c r => rw [List.takeWhile_cons_of_neg (by simp [hrest c r rfl])]
  have hmr : matchesRest rest = true :=
    matchesRest_of_subset _ _ hlf (fun c hc => by simp [hc])
  have hstep : findSubmatchFrom (init ++ last :: rest) (init.length + 1) =
      findSubmatchFrom (init ++ last :: rest) init.length := by
    have hd : (init ++ last :: rest).drop (init.length + 1) = rest := by
      have : init ++ last :: rest = (init ++ [last]) ++ rest := by simp
      rw [this]
      exact List.drop_left' (by simp)
    rw [findSubmatchFrom, hd]
    cases rest with
    | nil => rfl
    | cons c r => simp [hrest c r rfl]
  unfold findSubmatch
  rw [hrun, List.length_append, List.length_singleton, hstep]
  cases init with
  | nil => simp [findSubmatchFrom, hlast, hmr]
  | cons a t =>
    have hd : ((a :: t) ++ last :: rest).drop (t.length + 1) = last :: rest :=
      List.drop_left' (by simp)
    have ht : ((a :: t) ++ last :: rest).take (t.length + 1) = a :: t :=
      List.take_left' (by simp)
    rw [List.length_cons, findSubmatchFrom, hd, ht]
    simp [hlast, hmr]

/-- C12: on every text without line feed camelCase equals the reference definition:
a text that does not begin with a letter A to Z is unchanged, and otherwise the
first `max 1 (n - 1)` characters are put in lower case, `n` being the length of
the leading run of letters A to Z. -/
theorem camelCase_eq_reference (s : String) (hlf : Char.ofNat 10 ∉ s.data) :
    camelCase s = camelCaseReference s := by
  have hm : matchesRest s.data = true := by
    simp only [matchesRest, List.all_eq_true, decide_eq_true_eq]
    exact fun c hc h => hlf (h ▸ hc)
  rcases List.eq_nil_or_concat (s.data.takeWhile isUpperAZ) with hnil | ⟨init, last, hrun⟩
  · have hnone : findSubmatch s.data = none := by
      apply findSubmatch_none
      intro c r hcr
      rw [hcr] at hnil
      by_contra hc
      rw [List.takeWhile_cons_of_pos (by simpa using hc)] at hnil
      exact List.cons_ne_nil _ _ hnil
    simp [camelCase, camelCaseReference, hnone, hnil]
  · rw [List.concat_eq_append] at hrun
    have hsplit := List.takeWhile_append_dropWhile isUpperAZ s.data
    have hup : ∀ c ∈ init ++ [last], isUpperAZ c = true := by
      intro c hc
      rw [← hrun] at hc
      exact List.mem_takeWhile_imp hc
    have hinit : ∀ c ∈ init, isUpperAZ c = true := fun c hc => hup c (by simp [hc])
    have hlast : isUpperAZ last = true := hup last (by simp)
    have hrest : ∀ c r, s.data.dropWhile isUpperAZ = c :: r → isUpperAZ c = false := by
      intro c r hcr
      have := List.head?_dropWhile_not isUpperAZ s.data
      rw [hcr] at this
      simpa using this
    have hdata : s.data = init ++ last :: s.data.dropWhile isUpperAZ := by
      conv_lhs => rw [← hsplit, hrun]
      simp
    have hfs := findSubmatch_run init (s.data.dropWhile isUpperAZ) last hinit hlast hrest
      (hdata ▸ hm)
    rw [← hdata] at hfs
    have hn : (s.data.takeWhile isUpperAZ).length = init.length + 1 := by simp [hrun]
    simp only [camelCase, camelCaseReference, hfs, hn]
    generalize s.data.dropWhile isUpperAZ = rest at hdata
    cases init with
    | nil =>
      rw [hdata]
      simp
    | cons a t =>
      have h1 : max 1 (List.length (a :: t) + 1 - 1) = (a :: t).length := by simp
      rw [h1, hdata, List.take_left' rfl, List.drop_left' rfl]
      simp

/-- C12: the reference definition at the three texts of Test_camelCase. -/
theorem camelCase_eq_reference_witness :
    Char.ofNat 10 ∉ "ACLCamelCaseTest".data ∧
    camelCase "ACLCamelCaseTest" = camelCaseReference "ACLCamelCaseTest" ∧
    camelCaseReference "ACLCamelCaseTest" = "aclCamelCaseTest" ∧
    camelCase "CamelCaseTest" = "camelCaseTest" ∧
    camelCase "ACLCamelCaseTest" = "aclCamelCaseTest" ∧
    camelCase "aclCamelCaseTest" = "aclCamelCaseTest" :=
  ⟨by decide, camelCase_eq_reference "ACLCamelCaseTest" (by decide), by decide, by decide,
    by decide, by decide⟩

/-- A character put in lower case is not one of the letters A to Z. -/
theorem isUpperAZ_toLower (c : Char) : isUpperAZ c.toLower = false := by
  by_cases h : c.toNat ≥ 65 ∧ c.toNat ≤ 90
  · have hc : c = Char.ofNat c.toNat := (Char.ofNat_toNat c).symm
    obtain ⟨h1, h2⟩ := h
    generalize c.toNat = n at hc h1 h2
    subst hc
    interval_cases n <;> decide
  · have ht : c.toLower = c := by simp [Char.toLower, h]
    rw [ht]
    simpa [isUpperAZ] using h

/-- The function camelCase leaves unchanged a text on which the pattern does not match. -/
theorem camelCase_of_none (s : String) (h : findSubmatch s.data = none) : camelCase s = s := by
  simp [camelCase, h]

/-- C13: camelCase is idempotent on every text, with or without line feed. -/
theorem camelCase_idempotent (s : String) : camelCase (camelCase s) = camelCase s := by
  cases h : findSubmatch s.data with
  | none => rw [camelCase_of_none s h, camelCase_of_none s h]
  | some m =>
    obtain ⟨g1, g2, g3⟩ := m
    cases g1 with
    | nil =>
      have hc : camelCase s = ⟨g2.toLower :: g3⟩ := by simp [camelCase, h]
      rw [hc]
      apply camelCase_of_none
      apply findSubmatch_none
      intro c r hcr
      simp only [List.cons.injEq] at hcr
      rw [← hcr.1]
      exact isUpperAZ_toLower g2
    | cons a t =>
      have hc : camelCase s = ⟨(a :: t).map Char.toLower ++ g2 :: g3⟩ := by simp [camelCase, h]
      rw [hc]
      apply camelCase_of_none
      apply findSubmatch_none
      intro c r hcr
      simp only [List.map_cons, List.cons_append, List.cons.injEq] at hcr
      rw [← hcr.1]
      exact isUpperAZ_toLower a

/-! ## Attribute blocks -/

/-- The lines generateType writes when it succeeds are the type lines of an attribute
type of the spec. -/
theorem typeLines_attributeType (wide : Char → Bool) (filename : String) (typ : GoType)
    (known : List String) (h : typeError wide filename typ known = none) :
    ∃ a : AttributeType, typeLines wide filename typ known = schemaLines a := by
  unfold typeError generateType generateTypeSwitch at h
  unfold typeLines generateType generateTypeSwitch
  split_ifs at h ⊢
  · exact ⟨.NestedObject typ.Name, by simp [schemaLines]⟩
  · exact ⟨.NestedObject typ.ElemName, by simp [schemaLines]⟩
  · exact ⟨.ListOfNestedObject typ.ElemName, by simp [schemaLines]⟩
  · exact ⟨.ListOfNestedObject typ.ElemElemName, by simp [schemaLines]⟩
  · exact ⟨.String, by simp [schemaLines]⟩
  · exact ⟨.ListOfString, by simp [schemaLines]⟩
  · exact ⟨.MapOfStringToString, by simp [schemaLines]⟩
  · cases hk : typ.Kind <;> simp [hk] at h ⊢ <;>
      first
      | exact ⟨.Bool, rfl⟩
      | exact ⟨.Number, rfl⟩
      | exact ⟨.String, rfl⟩
  · exact ⟨.String, by simp [schemaLines]⟩
  · exact ⟨.ListOfString, by simp [schemaLines]⟩
  · exact ⟨.MapOfStringToString, by simp [schemaLines]⟩
  · cases hk : typ.Kind <;> simp [hk] at h ⊢ <;>
      first
      | exact ⟨.Bool, rfl⟩
      | exact ⟨.Number, rfl⟩
      | exact ⟨.String, rfl⟩

/-- C14: when generateSchema succeeds on a struct, the text it wrote is the header,
one block per tagged field in declaration order and the closing brace; each block
is the quoted tag, the type lines of one attribute type and one marker
`Optional: true`. -/
theorem generateSchema_blocks_optional (wide : Char → Bool) (filename b : String)
    (obj : GoType) (fields : List StructField) (exported : Bool) (known : List String)
    (b1 name : String) (hobj : obj.Fields = some fields)
    (h : generateSchema wide filename b obj exported known = some (b1, name, none)) :
    tagged fields ≠ [] ∧
    (∀ f ∈ tagged fields, ∃ a : AttributeType,
      typeLines wide filename f.Type known = schemaLines a) ∧
    b1 = b ++ (name ++ " = map[string]tfsdk.Attribute\x7b\n") ++
          joinAll ((tagged fields).map (fun f =>
            quote wide f.terraform ++ ": \x7b\n" ++ typeLines wide filename f.Type known ++
              "Optional: true,\n" ++ "\x7d,\n")) ++
          "\x7d\n\n" := by
  rcases generateSchema_cases wide filename b obj fields exported known hobj with
    ⟨b2, err, _, h1⟩ | ⟨_, _, b2, h1⟩ | ⟨hfs, hne, h1⟩
  · rw [h1] at h
    simp at h
  · rw [h1] at h
    simp at h
  · rw [h1] at h
    simp only [Option.some.injEq, Prod.mk.injEq, and_true] at h
    rw [List.findSome?_eq_none_iff] at hfs
    refine ⟨hne, fun f hf => typeLines_attributeType wide filename f.Type known (hfs f hf), ?_⟩
    rw [← h.2, ← h.1]
    rfl

set_option maxRecDepth 100000 in
/-- C14: the scenario of the spec. The schema of the provider struct holds three
blocks, named `host`, `username` and `password`, each of the String attribute
type and each with one marker `Optional: true`. -/
theorem generateSchema_blocks_optional_witness :
    hashicupsProvider.Fields =
      some [("Host", .basic .string, "host"), ("Username", .basic .string, "username"),
        ("Password", .basic .string, "password")] ∧
    generateSchema (fun _ => true) "provider" "" hashicupsProvider true [] =
      some ("hashicupsProvider = map[string]tfsdk.Attribute\x7b\n\"host\": \x7b\nType: types.StringType,\nOptional: true,\n\x7d,\n\"username\": \x7b\nType: types.StringType,\nOptional: true,\n\x7d,\n\"password\": \x7b\nType: types.StringType,\nOptional: true,\n\x7d,\n\x7d\n\n",
        "hashicupsProvider", none) ∧
    countOccurrences "Optional: true".data
      "hashicupsProvider = map[string]tfsdk.Attribute\x7b\n\"host\": \x7b\nType: types.StringType,\nOptional: true,\n\x7d,\n\"username\": \x7b\nType: types.StringType,\nOptional: true,\n\x7d,\n\"password\": \x7b\nType: types.StringType,\nOptional: true,\n\x7d,\n\x7d\n\n".data = 3 ∧
    (∀ f ∈ tagged [("Host", GoType.basic .string, "host"),
        ("Username", .basic .string, "username"), ("Password", .basic .string, "password")],
      ∃ a : AttributeType, typeLines (fun _ => true) "provider" f.Type [] = schemaLines a) :=
  ⟨rfl, by rfl, by rfl,
   (generateSchema_blocks_optional (fun _ => true) "provider" "" hashicupsProvider _ true []
      _ _ rfl (by rfl)).2.1⟩

/-! ## Schema names -/

/-- The loop of generateSchema appends to the builder: what it writes, the flag and
the error do not depend on the text already there. -/
theorem generateSchemaLoop_builder (wide : Char → Bool) (filename : String)
    (known : List String) (fields : List StructField) (b : String) (found : Bool) :
    generateSchemaLoop wide filename known fields b found =
      (b ++ (generateSchemaLoop wide filename known fields "" found).1,
        (generateSchemaLoop wide filename known fields "" found).2) := by
  induction fields generalizing b found with
  | nil => simp [generateSchemaLoop]
  | cons f rest ih =>
    unfold generateSchemaLoop
    by_cases ht : f.terraform = ""
    · simp only [ht, if_true]
      exact ih b found
    · simp only [ht, if_false]
      rw [generateType_builder wide filename (b ++ _), generateType_builder wide filename ("" ++ _)]
      cases he : typeError wide filename f.Type known with
      | some err => simp [String.append_assoc]
      | none =>
        simp only []
        rw [ih (b ++ _ ++ _ ++ _ ++ _) true, ih ("" ++ _ ++ _ ++ _ ++ _) true]
        simp [String.append_assoc]

/-- On a struct generateSchema appends its text to the builder, and the text begins
with the declaration of the schema under the name of the type, put through
camelCase unless the schema is exported. -/
theorem generateSchema_builder (wide : Char → Bool) (filename b : String) (obj : GoType)
    (fields : List StructField) (exported : Bool) (known : List String)
    (hobj : obj.Fields = some fields) :
    (∃ name err, generateSchema wide filename b obj exported known =
      some (b ++ schemaText wide filename obj exported known, name, err)) ∧
    ∃ rest, schemaText wide filename obj exported known =
      ((if exported then obj.Name else camelCase obj.Name) ++
        " = map[string]tfsdk.Attribute\x7b\n") ++ rest := by
  have hb := generateSchemaLoop_builder wide filename known fields
    (b ++ ((if exported then obj.Name else camelCase obj.Name) ++
      " = map[string]tfsdk.Attribute\x7b\n")) false
  have h0 := generateSchemaLoop_builder wide filename known fields
    ((if exported then obj.Name else camelCase obj.Name) ++
      " = map[string]tfsdk.Attribute\x7b\n") false
  rcases hl : generateSchemaLoop wide filename known fields "" false with ⟨t, found, e⟩
  rw [hl] at hb h0
  simp only at hb h0
  cases e with
  | some err =>
    constructor
    · exact ⟨"", some err, by simp [generateSchema, schemaText, hobj, hb, h0, String.append_assoc]⟩
    · exact ⟨t, by simp [generateSchema, schemaText, hobj, h0]⟩
  | none =>
    cases found with
    | true =>
      constructor
      · exact ⟨if exported then obj.Name else camelCase obj.Name, none, by
          simp [generateSchema, schemaText, hobj, hb, h0, String.append_assoc]⟩
      · exact ⟨t ++ "\x7d\n\n", by
          simp [generateSchema, schemaText, hobj, h0, String.append_assoc]⟩
    | false =>
      constructor
      · exact ⟨"", some (filename ++ (": no attribute found for " ++ obj.String)), by
          simp [generateSchema, schemaText, hobj, hb, h0, String.append_assoc]⟩
      · exact ⟨t ++ "\x7d\n\n", by
          simp [generateSchema, schemaText, hobj, h0, String.append_assoc]⟩

/-- The loop over the dependency types appends the schema text of each, in order. -/
theorem generateDependsOn_eq (wide : Char → Bool) (filename : String) (known : List String)
    (deps : List GoType) (b : String) (hdeps : ∀ d ∈ deps, d.Fields ≠ none) :
    generateDependsOn wide filename known deps b =
      some (b ++ joinAll (deps.map (fun d => schemaText wide filename d false known))) := by
  induction deps generalizing b with
  | nil => simp [generateDependsOn, joinAll]
  | cons d rest ih =>
    have hd : d.Fields ≠ none := hdeps d (by simp)
    obtain ⟨fs, hfs⟩ := Option.ne_none_iff_exists'.mp hd
    obtain ⟨⟨name, err, h1⟩, _⟩ := generateSchema_builder wide filename b d fs false known hfs
    rw [generateDependsOn, h1]
    simp only []
    rw [ih _ (fun x hx => hdeps x (by simp [hx]))]
    simp [joinAll, String.append_assoc]

/-- C15 (as amended): for a unit of structs whose primary type has a tagged field and
whose tagged fields all map, generateSchemaFile returns the name of the primary
type unchanged and hands to `format.Source` a text that declares the primary
schema under that name, followed by the schema text of every dependency type; the
text of a dependency type `d` declares it under `camelCase` of its name. That is
the identifier generateType writes in a nested reference for a field whose type
has a known name, and, when the empty name is not a known name, in a reference
through a pointer to such a type, a slice of it or a slice of pointers to it. -/
theorem schema_naming (wide : Char → Bool) (fmtSource : String → Except String String)
    (f : File) (known : List String) (fields : List StructField)
    (hobj : f.Object.Fields = some fields) (hdeps : ∀ d ∈ f.DependsOn, d.Fields ≠ none)
    (htag : tagged fields ≠ [])
    (hmap : ∀ x ∈ tagged fields, typeError wide f.Name x.Type known = none) :
    generateSchemaFile wide fmtSource f known =
      (match fmtSource
          (schemaFileHeader ++ (f.Object.Name ++ " = map[string]tfsdk.Attribute\x7b\n") ++
            joinAll ((tagged fields).map (fun x =>
              attributeBlock wide x.terraform (typeLines wide f.Name x.Type known))) ++
            "\x7d\n\n" ++
            joinAll (f.DependsOn.map (fun d => schemaText wide f.Name d false known)) ++ ")") with
        | .ok p => some (f.Object.Name, p, none)
        | .error err => some (f.Object.Name, "", some err)) ∧
    (∀ d ∈ f.DependsOn, ∃ rest, schemaText wide f.Name d false known =
      (camelCase d.Name ++ " = map[string]tfsdk.Attribute\x7b\n") ++ rest) ∧
    (∀ T : GoType, Contains known T.Name = true →
      typeLines wide f.Name T known =
        "Attributes: tfsdk.SingleNestedAttributes(" ++ camelCase T.Name ++ "),\n" ∧
      (Contains known "" = false →
        typeLines wide f.Name (.pointer T) known =
          "Attributes: tfsdk.SingleNestedAttributes(" ++ camelCase T.Name ++ "),\n" ∧
        typeLines wide f.Name (.slice T) known =
          "Attributes: tfsdk.ListNestedAttributes(" ++ camelCase T.Name ++ "),\n" ∧
        typeLines wide f.Name (.slice (.pointer T)) known =
          "Attributes: tfsdk.ListNestedAttributes(" ++ camelCase T.Name ++ "),\n")) := by
  refine ⟨?_, ?_, ?_⟩
  · rcases generateSchema_cases wide f.Name schemaFileHeader f.Object fields true known hobj with
      ⟨b2, err, hfs, _⟩ | ⟨_, ht, _, _⟩ | ⟨_, _, h1⟩
    · obtain ⟨x, hx, hxe⟩ := List.exists_of_findSome?_eq_some hfs
      rw [hmap x hx] at hxe
      cases hxe
    · exact absurd ht htag
    · simp only [if_true] at h1
      rw [generateSchemaFile, h1]
      simp only []
      rw [generateDependsOn_eq wide f.Name known f.DependsOn _ hdeps]
  · intro d hd
    obtain ⟨fs, hfs⟩ := Option.ne_none_iff_exists'.mp (hdeps d hd)
    obtain ⟨_, rest, hrest⟩ := generateSchema_builder wide f.Name "" d fs false known hfs
    exact ⟨rest, by simpa using hrest⟩
  · intro T hk
    refine ⟨by simp [typeLines, generateType, hk], fun h0 => ?_⟩
    have n1 : (GoType.pointer T).Name = "" := rfl
    have n2 : (GoType.slice T).Name = "" := rfl
    have n3 : (GoType.slice (.pointer T)).Name = "" := rfl
    have k1 : (GoType.pointer T).Kind = .Pointer := rfl
    have k2 : (GoType.slice T).Kind = .Slice := rfl
    have k3 : (GoType.slice (.pointer T)).Kind = .Slice := rfl
    have m1 : (GoType.pointer T).ElemName = T.Name := rfl
    have m2 : (GoType.slice T).ElemName = T.Name := rfl
    have m3 : (GoType.slice (.pointer T)).ElemName = "" := rfl
    have p3 : (GoType.slice (.pointer T)).ElemIsPointer = true := by
      simp [GoType.ElemIsPointer, GoType.Elem, GoType.Kind]
    have q3 : (GoType.slice (.pointer T)).ElemElemName = T.Name := rfl
    refine ⟨?_, ?_, ?_⟩
    · simp [typeLines, generateType, n1, k1, m1, h0, hk]
    · simp [typeLines, generateType, n2, k2, m2, h0, hk]
    · simp [typeLines, generateType, n3, k3, m3, p3, q3, h0, hk]

set_option maxRecDepth 100000 in
/-- C15: the unit of Test_generateFile, with primary type TestPrimitive: the returned
name is `TestPrimitive`; and the unit of `api.Config` with its dependency
`api.TLSConfig`, declared as `tlsConfig` and referred to under that identifier. -/
theorem schema_naming_witness :
    TestPrimitive.Fields ≠ none ∧
    (∃ content, generateSchemaFile (fun _ => true) (fun s => .ok s)
      ⟨"test-file", [], TestPrimitive, []⟩ [] = some ("TestPrimitive", content, none)) ∧
    generateSchemaFile (fun _ => true) (fun s => .ok s)
        ⟨"unit", [], apiConfig, [apiTLSConfig]⟩ ["TLSConfig"] =
      some ("Config",
        "package schema\n\nimport (\n\t\"github.com/hashicorp/terraform-plugin-framework/tfsdk\"\n\t\"github.com/hashicorp/terraform-plugin-framework/types\"\n)\n\nvar (\nConfig = map[string]tfsdk.Attribute\x7b\n\"address\": \x7b\nType: types.StringType,\nOptional: true,\n\x7d,\n\"wait_time\": \x7b\nType: types.StringType,\nOptional: true,\n\x7d,\n\"tls\": \x7b\nAttributes: tfsdk.SingleNestedAttributes(tlsConfig),\nOptional: true,\n\x7d,\n\x7d\n\ntlsConfig = map[string]tfsdk.Attribute\x7b\n\"address\": \x7b\nType: types.StringType,\nOptional: true,\n\x7d,\n\x7d\n\n)",
        none) :=
  ⟨by simp [TestPrimitive, GoType.Fields],
   ⟨_, (schema_naming (fun _ => true) (fun s => .ok s) ⟨"test-file", [], TestPrimitive, []⟩ []
      _ rfl (by simp) (by simp [tagged, StructField.terraform]) (by decide)).1⟩,
   (schema_naming (fun _ => true) (fun s => .ok s) ⟨"unit", [], apiConfig, [apiTLSConfig]⟩
      ["TLSConfig"] _ rfl (by simp [apiTLSConfig, GoType.Fields])
      (by simp [tagged, StructField.terraform]) (by decide)).1.trans (by rfl)⟩

set_option maxRecDepth 100000 in
/-- C15 (as stated) fails: the unit of `api.Holder` with the dependency `api.Foo` and a
dependency of an unnamed struct type has the known names `Foo` and the empty name.
For its field of type `[]api.Foo`, and for a field of type `*api.Foo` or
`[]*api.Foo`, generateType then writes a nested reference with the empty
identifier, not `foo`, under which `api.Foo` is declared. -/
theorem schema_naming_empty_known_name :
    knownOf [⟨"holder", [], apiHolder, [apiFoo, unnamedStruct]⟩] = ["Foo", ""] ∧
    generateSchemaFile (fun _ => true) (fun s => .ok s)
        ⟨"holder", [], apiHolder, [apiFoo, unnamedStruct]⟩ ["Foo", ""] =
      some ("Holder",
        schemaFileHeader ++
          "Holder = map[string]tfsdk.Attribute\x7b\n\"foos\": \x7b\nAttributes: tfsdk.SingleNestedAttributes(),\nOptional: true,\n\x7d,\n\x7d\n\nfoo = map[string]tfsdk.Attribute\x7b\n\"bar\": \x7b\nType: types.StringType,\nOptional: true,\n\x7d,\n\x7d\n\n = map[string]tfsdk.Attribute\x7b\n\"note\": \x7b\nType: types.StringType,\nOptional: true,\n\x7d,\n\x7d\n\n)",
        none) ∧
    typeLines (fun _ => true) "holder" (.slice apiFoo) ["Foo", ""] =
      "Attributes: tfsdk.SingleNestedAttributes(),\n" ∧
    typeLines (fun _ => true) "holder" (.pointer apiFoo) ["Foo", ""] =
      "Attributes: tfsdk.SingleNestedAttributes(),\n" ∧
    typeLines (fun _ => true) "holder" (.slice (.pointer apiFoo)) ["Foo", ""] =
      "Attributes: tfsdk.SingleNestedAttributes(),\n" ∧
    camelCase apiFoo.Name = "foo" := by
  refine ⟨by rfl, by rfl, by rfl, by rfl, by rfl, by rfl⟩

/-! ## The aggregate registry -/

/-- One step of the loop of GenerateFiles on a unit that generates and is written. -/
theorem GenerateFilesLoop_step (wide : Char → Bool) (fmtSource : String → Except String String)
    (create : String → Option String) (known : List String) (f : File) (rest : List File)
    (fs : List (String × String)) (schema : List String)
    (h : unitSucceeds wide fmtSource create known f) :
    GenerateFilesLoop wide fmtSource create known (f :: rest) fs schema =
      GenerateFilesLoop wide fmtSource create known rest
        (fs ++ [unitFile wide fmtSource known f])
        (schema ++ [unitEntry wide fmtSource known f]) := by
  obtain ⟨name, content, p, hg, hf, hc⟩ := h
  rw [GenerateFilesLoop, hg]
  simp only [write, hf, hc, unitFile, unitEntry, unitSchemaName, hg]

/-- The loop of GenerateFiles over units that all generate and are written. -/
theorem GenerateFilesLoop_ok (wide : Char → Bool) (fmtSource : String → Except String String)
    (create : String → Option String) (known : List String) (files : List File)
    (fs : List (String × String)) (schema : List String)
    (h : ∀ g ∈ files, unitSucceeds wide fmtSource create known g) :
    GenerateFilesLoop wide fmtSource create known files fs schema =
      some (fs ++ files.map (unitFile wide fmtSource known),
        .ok (schema ++ files.map (unitEntry wide fmtSource known))) := by
  induction files generalizing fs schema with
  | nil => simp [GenerateFilesLoop]
  | cons f rest ih =>
    rw [GenerateFilesLoop_step _ _ _ _ _ _ _ _ (h f (by simp)),
      ih _ _ (fun g hg => h g (by simp [hg]))]
    simp

/-- The loop of GenerateFiles stops at the first unit that fails. -/
theorem GenerateFilesLoop_fail (wide : Char → Bool) (fmtSource : String → Except String String)
    (create : String → Option String) (known : List String) (pre post : List File) (f : File)
    (err : String) (fs : List (String × String)) (schema : List String)
    (hpre : ∀ g ∈ pre, unitSucceeds wide fmtSource create known g)
    (hf : unitFails wide fmtSource create known f err) :
    GenerateFilesLoop wide fmtSource create known (pre ++ f :: post) fs schema =
      some (fs ++ pre.map (unitFile wide fmtSource known), .error err) := by
  induction pre generalizing fs schema with
  | nil =>
    rcases hf with ⟨name, content, hg⟩ | ⟨name, content, hg, hfmt | ⟨⟨p, hp⟩, hc⟩⟩
    · simp [GenerateFilesLoop, hg]
    · simp [GenerateFilesLoop, hg, write, hfmt]
    · simp [GenerateFilesLoop, hg, write, hp, hc]
  | cons g rest ih =>
    rw [List.cons_append, GenerateFilesLoop_step _ _ _ _ _ _ _ _ (hpre g (by simp)),
      ih _ _ (fun x hx => hpre x (by simp [hx]))]
    simp

/-- C16: GenerateFiles over a file system that records every file written. When every
unit generates and is written, the files of the units are written in the order
of the units and then write is called once, for `schema.go`, with the registry
text, which holds one entry `"<unit name>": {Attributes: <schema name>},` per unit in
that order. When a unit fails after units that succeeded, GenerateFiles returns
its error with only the files of the units before it written: no later unit is
processed and the registry is not written. -/
theorem GenerateFiles_registry (wide : Char → Bool)
    (fmtSource : String → Except String String) (create : String → Option String)
    (files pre post : List File) (f : File) (err : String) (fs : List (String × String)) :
    ((∀ g ∈ files, unitSucceeds wide fmtSource create (knownOf files) g) →
      GenerateFiles wide fmtSource create files fs =
        some (write fmtSource create
          (fs ++ files.map (unitFile wide fmtSource (knownOf files))) "schema.go"
          (registryText (joinSep "\n"
            (files.map (fun g =>
              quote wide g.Name ++ (": \x7bAttributes: " ++
                (unitSchemaName wide fmtSource (knownOf files) g ++ "\x7d,")))))))) ∧
    (files = pre ++ f :: post →
      (∀ g ∈ pre, unitSucceeds wide fmtSource create (knownOf files) g) →
      unitFails wide fmtSource create (knownOf files) f err →
      GenerateFiles wide fmtSource create files fs =
        some (fs ++ pre.map (unitFile wide fmtSource (knownOf files)), some err)) := by
  constructor
  · intro h
    rw [GenerateFiles, GenerateFilesLoop_ok _ _ _ _ _ _ _ h]
    rfl
  · intro hfiles hpre hf
    subst hfiles
    rw [GenerateFiles, GenerateFilesLoop_fail _ _ _ _ _ _ _ _ _ _ hpre hf]

set_option maxRecDepth 100000 in
/-- C16: two runs from an empty file system with a formatting pass that accepts every
text. The units `tls` and `provider` are written and then the registry with
their two entries; with the unit `empty`, whose type has no tagged field, in second
place, only `tls.go` is written and the unit after it, whose object is not a
struct, is not reached. -/
theorem GenerateFiles_registry_witness :
    GenerateFiles (fun _ => true) (fun s => .ok s) (fun _ => none)
        [⟨"tls", [], apiTLSConfig, []⟩, ⟨"provider", [], hashicupsProvider, []⟩] [] =
      some ([("./internal/schema/tls.go",
              schemaFileHeader ++
                "TLSConfig = map[string]tfsdk.Attribute\x7b\n\"address\": \x7b\nType: types.StringType,\nOptional: true,\n\x7d,\n\x7d\n\n)"),
             ("./internal/schema/provider.go",
              schemaFileHeader ++
                "hashicupsProvider = map[string]tfsdk.Attribute\x7b\n\"host\": \x7b\nType: types.StringType,\nOptional: true,\n\x7d,\n\"username\": \x7b\nType: types.StringType,\nOptional: true,\n\x7d,\n\"password\": \x7b\nType: types.StringType,\nOptional: true,\n\x7d,\n\x7d\n\n)"),
             ("./internal/schema/schema.go",
              "package schema\n\nimport \"github.com/hashicorp/terraform-plugin-framework/tfsdk\"\n\n\nvar (\n\tSchema = map[string]tfsdk.Schema\x7b\n\t\t\"tls\": \x7bAttributes: TLSConfig\x7d,\n\"provider\": \x7bAttributes: hashicupsProvider\x7d,\n\t\x7d\n)\n")],
            none) ∧
    GenerateFiles (fun _ => true) (fun s => .ok s) (fun _ => none)
        [⟨"tls", [], apiTLSConfig, []⟩, ⟨"empty", [], apiEmpty, []⟩,
          ⟨"later", [], .basic .int, []⟩] [] =
      some ([("./internal/schema/tls.go",
              schemaFileHeader ++
                "TLSConfig = map[string]tfsdk.Attribute\x7b\n\"address\": \x7b\nType: types.StringType,\nOptional: true,\n\x7d,\n\x7d\n\n)")],
            some "empty: no attribute found for api.Empty") :=
  ⟨((GenerateFiles_registry (fun _ => true) (fun s => .ok s) (fun _ => none)
        [⟨"tls", [], apiTLSConfig, []⟩, ⟨"provider", [], hashicupsProvider, []⟩] [] []
        ⟨"", [], apiEmpty, []⟩ "" []).1
      (by
        intro g hg
        simp only [List.mem_cons, List.mem_singleton, List.not_mem_nil, or_false] at hg
        rcases hg with rfl | rfl
        · exact ⟨_, _, _, by rfl, rfl, rfl⟩
        · exact ⟨_, _, _, by rfl, rfl, rfl⟩)).trans (by rfl),
   ((GenerateFiles_registry (fun _ => true) (fun s => .ok s) (fun _ => none)
        [⟨"tls", [], apiTLSConfig, []⟩, ⟨"empty", [], apiEmpty, []⟩,
          ⟨"later", [], .basic .int, []⟩]
        [⟨"tls", [], apiTLSConfig, []⟩] [⟨"later", [], .basic .int, []⟩]
        ⟨"empty", [], apiEmpty, []⟩ "empty: no attribute found for api.Empty" []).2 rfl
      (by
        intro g hg
        simp only [List.mem_singleton] at hg
        subst hg
        exact ⟨_, _, _, by rfl, rfl, rfl⟩)
      (Or.inl ⟨_, _, by rfl⟩)).trans (by rfl)⟩

/-! ## The snapshot harness -/

/-- The inner loop of checkFunction appends one check per attribute, in order. -/
theorem checkAttrs_eq (name : String) (attrs : GoMap String) (testFuncs : List TestCheckFunc) :
    checkAttrs name attrs testFuncs =
      testFuncs ++ attrs.map (fun a =>
        if a.2 = "set()" then TestCheckFunc.TestCheckResourceAttrSet name a.1
        else TestCheckFunc.TestCheckResourceAttr name a.1 a.2) := by
  induction attrs generalizing testFuncs with
  | nil => simp [checkAttrs]
  | cons a rest ih =>
    obtain ⟨attr, value⟩ := a
    rw [checkAttrs, ih]
    simp

/-- The outer loop of checkFunction appends the checks of every resource, in order. -/
theorem checkResources_eq (st : state) (testFuncs : List TestCheckFunc) :
    checkResources st testFuncs =
      testFuncs ++ st.flatMap (fun r => r.2.map (fun a =>
        if a.2 = "set()" then TestCheckFunc.TestCheckResourceAttrSet r.1 a.1
        else TestCheckFunc.TestCheckResourceAttr r.1 a.1 a.2)) := by
  induction st generalizing testFuncs with
  | nil => simp [checkResources]
  | cons r rest ih =>
    obtain ⟨name, attrs⟩ := r
    rw [checkResources, ih, checkAttrs_eq]
    simp

/-- C17: for every saved snapshot checkFunction builds one check per pair of a resource
and one of its attributes, in the order in which the maps are ranged over: the
presence check `TestCheckResourceAttrSet` when the recorded value is `set()`, the
check `TestCheckResourceAttr` against the recorded value otherwise. -/
theorem checkFunction_checks (st : state) :
    ∃ checks, checkFunction (.ok st) = some checks ∧
      checks = st.flatMap (fun r => r.2.map (fun a =>
        if a.2 = "set()" then TestCheckFunc.TestCheckResourceAttrSet r.1 a.1
        else TestCheckFunc.TestCheckResourceAttr r.1 a.1 a.2)) ∧
      checks.length = (st.map (fun r => r.2.length)).sum := by
  refine ⟨_, rfl, ?_, ?_⟩
  · rw [checkResources_eq]
    simp
  · rw [checkResources_eq]
    simp only [List.nil_append]
    induction st with
    | nil => rfl
    | cons r rest ih => simp [List.flatMap_cons, ih]

/-- The expression `m[k]` is the value held for the key, and the empty string when
none is held. -/
theorem GoMap.get_eq (m : GoMap String) (k : String) : m.get k = (m.find? k).getD "" := by
  induction m with
  | nil => rfl
  | cons a rest ih =>
    obtain ⟨k1, v⟩ := a
    by_cases h : k = k1 <;> simp [GoMap.get, GoMap.find?, h, ih]

/-- The expression `m[k]` on a map of maps is the map held for the key, and the nil
map when none is held. -/
theorem GoMap.getMap_eq (m : GoMap (GoMap String)) (k : String) :
    m.getMap k = (m.find? k).getD [] := by
  induction m with
  | nil => rfl
  | cons a rest ih =>
    obtain ⟨k1, v⟩ := a
    by_cases h : k = k1 <;> simp [GoMap.getMap, GoMap.find?, h, ih]

/-- Setting a key that the map does not hold adds the pair at the end. -/
theorem GoMap.set_new {α : Type} (m : GoMap α) (k : String) (v : α) (h : k ∉ m.keys) :
    m.set k v = m ++ [(k, v)] := by
  induction m with
  | nil => rfl
  | cons a rest ih =>
    obtain ⟨k1, v1⟩ := a
    simp only [GoMap.keys, List.map_cons, List.mem_cons, not_or] at h
    have hr : k ∉ GoMap.keys rest := h.2
    simp [GoMap.set, h.1, ih hr]

/-- The inner loop of diffAndRecordCheckFunction on attributes with distinct keys that
the map under construction does not hold yet: one pair per key other than `%`. -/
theorem diffAttrs_eq (oldResource attributes attrs : GoMap String)
    (hn : attributes.keys.Nodup) (hd : ∀ k ∈ attributes.keys, k ∉ attrs.keys) :
    diffAttrs oldResource attributes attrs =
      attrs ++ (attributes.filter (fun a => a.1 ≠ "%")).map (fun a =>
        (a.1, if oldResource.get a.1 = a.2 then a.2 else "set()")) := by
  induction attributes generalizing attrs with
  | nil => simp [diffAttrs]
  | cons a rest ih =>
    obtain ⟨k, v⟩ := a
    simp only [GoMap.keys, List.map_cons, List.nodup_cons, List.mem_cons, forall_eq_or_imp] at hn hd
    have hrest : ∀ (x : String), x ∈ GoMap.keys rest → x ∉ GoMap.keys attrs := hd.2
    have hnew : ∀ (w : String) (x : String), x ∈ GoMap.keys rest →
        x ∉ GoMap.keys (attrs ++ [(k, w)]) := by
      intro w x hx
      simp only [GoMap.keys, List.map_append, List.map_cons, List.map_nil, List.mem_append,
        List.mem_singleton, not_or]
      refine ⟨hrest x hx, ?_⟩
      rintro rfl
      exact hn.1 hx
    rw [diffAttrs]
    by_cases hp : k = "%"
    · simp only [hp, if_true]
      rw [ih attrs hn.2 hrest]
      simp
    · simp only [hp, if_false]
      by_cases he : oldResource.get k = v
      · simp only [he, if_true]
        rw [GoMap.set_new attrs k v hd.1, ih _ hn.2 (hnew v)]
        simp [hp, he]
      · simp only [he, if_false]
        rw [GoMap.set_new attrs k "set()" hd.1, ih _ hn.2 (hnew "set()")]
        simp [hp, he]

/-- The outer loop of diffAndRecordCheckFunction on resources with distinct names that
the state under construction does not hold yet. -/
theorem diffResources_eq (old : state) (resources : GoMap (GoMap String)) (new : state)
    (hn : resources.keys.Nodup) (ha : ∀ r ∈ resources, r.2.keys.Nodup)
    (hd : ∀ k ∈ resources.keys, k ∉ new.keys) :
    diffResources old resources new =
      new ++ resources.map (fun r =>
        (r.1, (r.2.filter (fun a => a.1 ≠ "%")).map (fun a =>
          (a.1, if (old.getMap r.1).get a.1 = a.2 then a.2 else "set()")))) := by
  induction resources generalizing new with
  | nil => simp [diffResources]
  | cons r rest ih =>
    obtain ⟨name, attributes⟩ := r
    simp only [GoMap.keys, List.map_cons, List.nodup_cons, List.mem_cons, forall_eq_or_imp] at hn hd
    have hnew : ∀ (w : GoMap String) (x : String), x ∈ GoMap.keys rest →
        x ∉ GoMap.keys (new ++ [(name, w)]) := by
      intro w x hx
      simp only [GoMap.keys, List.map_append, List.map_cons, List.map_nil, List.mem_append,
        List.mem_singleton, not_or]
      refine ⟨hd.2 x hx, ?_⟩
      rintro rfl
      exact hn.1 hx
    rw [diffResources, GoMap.set_new new name _ hd.1,
      ih _ hn.2 (fun x hx => ha x (by simp [hx])) (hnew _),
      diffAttrs_eq _ _ _ (ha (name, attributes) (by simp)) (by simp [GoMap.keys])]
    simp

/-- C18 (as amended): for live resources with distinct names and distinct attribute
keys and every baseline, diffAndRecordCheckFunction records the live resources
and, for each, its attribute keys other than `%`, in the order of the live state.
The value recorded for the attribute `k` with live value `v` is `v` when the
baseline reads `v` for it, which is when the baseline holds `k` of that resource
with the value `v` or when `v` is empty and the baseline holds no value for `k`
of that resource; it is `set()` in every other case. -/
theorem diffAndRecord_records (old : state) (resources : GoMap (GoMap String))
    (hn : resources.keys.Nodup) (ha : ∀ r ∈ resources, r.2.keys.Nodup) :
    diffAndRecordCheckFunction (.ok old) resources =
      .ok (resources.map (fun r =>
        (r.1, (r.2.filter (fun a => a.1 ≠ "%")).map (fun a =>
          (a.1, if (old.getMap r.1).get a.1 = a.2 then a.2 else "set()"))))) ∧
    (∀ name k v, (old.getMap name).get k = v ↔
      (baselineHolds old name k v ∨ (v = "" ∧ ∀ w, ¬ baselineHolds old name k w))) := by
  constructor
  · rw [diffAndRecordCheckFunction, diffResources_eq old resources [] hn ha (by simp [GoMap.keys])]
    simp
  · intro name k v
    rw [GoMap.get_eq, GoMap.getMap_eq]
    unfold baselineHolds
    cases h1 : GoMap.find? old name with
    | none => simp [GoMap.find?, eq_comm]
    | some attrs =>
      cases h2 : GoMap.find? attrs k with
      | none => simp [h2, eq_comm]
      | some w => simp [h2]

/-- C18: the amended statement at a live state with the resource `consul_acl.test`,
against a prior baseline that holds the same `id` and another `name`. -/
theorem diffAndRecord_records_witness :
    GoMap.keys [("consul_acl.test", [("%", "3"), ("id", "x1"), ("name", "new"), ("note", "")])]
      = ["consul_acl.test"] ∧
    diffAndRecordCheckFunction (.ok [("consul_acl.test", [("id", "x1"), ("name", "old")])])
        [("consul_acl.test", [("%", "3"), ("id", "x1"), ("name", "new"), ("note", "")])] =
      .ok [("consul_acl.test", [("id", "x1"), ("name", "set()"), ("note", "")])] :=
  ⟨rfl,
   (diffAndRecord_records [("consul_acl.test", [("id", "x1"), ("name", "old")])]
      [("consul_acl.test", [("%", "3"), ("id", "x1"), ("name", "new"), ("note", "")])]
      (by decide) (by decide)).1.trans (by rfl)⟩

/-- C18 (as stated) fails: a live attribute with the empty value is recorded with the
empty value, not as `set()`, when there is no baseline, when the baseline lacks
the resource and when the baseline lacks the attribute. -/
theorem diffAndRecord_empty_value_kept :
    diffAndRecordCheckFunction (.ok []) [("consul_acl.test", [("note", "")])] =
      .ok [("consul_acl.test", [("note", "")])] ∧
    diffAndRecordCheckFunction (.ok [("other", [("note", "")])])
        [("consul_acl.test", [("note", "")])] =
      .ok [("consul_acl.test", [("note", "")])] ∧
    diffAndRecordCheckFunction (.ok [("consul_acl.test", [("id", "x1")])])
        [("consul_acl.test", [("note", "")])] =
      .ok [("consul_acl.test", [("note", "")])] ∧
    ¬ baselineHolds [("consul_acl.test", [("id", "x1")])] "consul_acl.test" "note" "" := by
  refine ⟨by rfl, by rfl, by rfl, ?_⟩
  rintro ⟨attrs, h1, h2⟩
  simp [GoMap.find?] at h1
  subst h1
  simp [GoMap.find?] at h2

/-! ## The model emitter and the known names -/

/-- On structs the loop over the dependency objects of GenerateModels does not panic. -/
theorem getModelDefinitions_isSome (deps : List GoType) (h : ∀ d ∈ deps, d.Fields ≠ none) :
    ∃ ms, getModelDefinitions deps = some ms := by
  induction deps with
  | nil => exact ⟨[], rfl⟩
  | cons d rest ih =>
    obtain ⟨fs, hfs⟩ := Option.ne_none_iff_exists'.mp (h d (by simp))
    obtain ⟨ms, hms⟩ := ih (fun x hx => h x (by simp [hx]))
    exact ⟨{ Name := d.Name, PrivateName := camelCase d.Name, PkgName := d.String,
             Fields := getModelFields fs } :: ms,
      by simp [getModelDefinitions, getModelDefinition, hfs, hms]⟩

/-- C19: GenerateModels returns the same text and the same error for every two lists
of known names, and returns a result on every unit of structs; getType maps a
field of a struct type other than `time.Duration` and `time.Time` to the pointer
to the holder of that name, without consulting any known name. -/
theorem GenerateModels_ignores_known (fmtSource : String → Except String String) (f : File)
    (k1 k2 : List String) (T : GoType) :
    GenerateModels fmtSource f k1 = GenerateModels fmtSource f k2 ∧
    (f.Object.Fields ≠ none → (∀ d ∈ f.DependsOn, d.Fields ≠ none) →
      ∃ text err, GenerateModels fmtSource f k1 = some (text, err)) ∧
    (T.Kind = .Struct → T.String ≠ "time.Duration" → T.String ≠ "time.Time" →
      getType T = "*" ++ T.Name) := by
  refine ⟨rfl, ?_, ?_⟩
  · intro ho hd
    obtain ⟨fs, hfs⟩ := Option.ne_none_iff_exists'.mp ho
    obtain ⟨ms, hms⟩ := getModelDefinitions_isSome f.DependsOn hd
    cases hf : fmtSource (executeModelsTemplate f.Imports
      ({ Name := f.Object.Name, PrivateName := camelCase f.Object.Name,
         PkgName := f.Object.String, Fields := getModelFields fs } :: ms)) with
    | ok p => exact ⟨p, none, by simp [GenerateModels, getModelDefinition, hfs, hms, hf]⟩
    | error e => exact ⟨"", some e, by simp [GenerateModels, getModelDefinition, hfs, hms, hf]⟩
  · intro hT h1 h2
    have hc := struct_String_not_exact T hT
    simp only [List.mem_cons, List.mem_singleton, List.not_mem_nil, or_false, forall_eq_or_imp,
      forall_eq] at hc
    simp [getType, hT, h1, h2, hc]

set_option maxRecDepth 100000 in
/-- C19: the unit of `api.Owner` with the dependency `api.Foo`. The field `Zed` of type
`api.Foo` gets the holder type `*Foo`, and the text is the same whether `Foo` is a
known name or not. -/
theorem GenerateModels_ignores_known_witness :
    GenerateModels (fun s => .ok s) ⟨"owner", ["api"], apiOwner, [apiFoo]⟩ [] =
      GenerateModels (fun s => .ok s) ⟨"owner", ["api"], apiOwner, [apiFoo]⟩ ["Foo"] ∧
    (∃ text err, GenerateModels (fun s => .ok s) ⟨"owner", ["api"], apiOwner, [apiFoo]⟩ [] =
      some (text, err)) ∧
    getType apiFoo = "*Foo" ∧
    (getModelDefinition apiOwner).map (fun m => m.Fields.map (fun x => (x.Name, x.Type))) =
      some [("Zed", "*Foo")] :=
  ⟨(GenerateModels_ignores_known (fun s => .ok s) ⟨"owner", ["api"], apiOwner, [apiFoo]⟩ []
      ["Foo"] apiFoo).1,
   (GenerateModels_ignores_known (fun s => .ok s) ⟨"owner", ["api"], apiOwner, [apiFoo]⟩ []
      ["Foo"] apiFoo).2.1 (by simp [apiOwner, GoType.Fields])
      (by simp [apiFoo, GoType.Fields]),
   (GenerateModels_ignores_known (fun s => .ok s) ⟨"owner", ["api"], apiOwner, [apiFoo]⟩ []
      ["Foo"] apiFoo).2.2 rfl (by decide) (by decide),
   by decide⟩

end Helper
